import Mathlib

/-!
# Verification of the ccs-extract categorization core

A shallow embedding, in Lean 4, of the merchant-normalization and
transaction-categorization core of the `ccs-extract` repository:

* `transaction_rules.py`  — `TransactionRule`, `TransactionRulesEngine`
  (`load_rules`, `add_rule`, `_check_amount_condition`,
  `_check_date_condition`, `apply_rules`);
* `transaction_categories.py` — default tables, `load_custom_config`,
  `normalize_merchant`, `categorize_transaction`;
* `ccs_extract.py` — `CreditCardStatementExtractor._categorize_transaction`.

Python strings are modelled as `List Char` (ASCII semantics), Python floats
as `Rat` (none of the verified properties depend on binary rounding),
JSON values as the inductive `Json`, and Python exceptions as `Except String`.
Python's `re.search` is modelled by a derivative-based matcher over the exact
regex fragment the repository uses (literals, escapes, `(?:...)` groups,
alternation, `?`/`+`/`*` postfixes, `\s`/`\d` classes, a leading `(?i)` flag);
all call sites in the modelled code pass `re.IGNORECASE`, so matching is
uniformly case-insensitive.
-/

/-- Python `str`, modelled as a list of characters. -/
abbrev Str := List Char

/-- Embed a Lean string literal as a Python string value. -/
def txt (s : String) : Str := s.data

/-- ASCII apostrophe, written out so source literals containing `'` can be
spliced into embedded pattern strings. -/
def apos : Char := Char.ofNat 39

/-- ASCII lower-casing, modelling `str.lower()` / `re.IGNORECASE` on the
character set the repository's data uses. -/
def lowerCh (c : Char) : Char :=
  if 'A' ≤ c ∧ c ≤ 'Z' then Char.ofNat (c.toNat + 32) else c

/-- `str.lower()`. -/
def lowerStr (s : Str) : Str := s.map lowerCh

/-! ## JSON values (the decoded result of Python's `json.load`) -/

/-- A decoded JSON value.  Numbers are modelled as rationals. -/
inductive Json where
  | null
  | bool (b : Bool)
  | num (q : Rat)
  | str (s : Str)
  | arr (items : List Json)
  | obj (fields : List (Str × Json))

instance {ε α : Type} [DecidableEq ε] [DecidableEq α] : DecidableEq (Except ε α) := fun a b =>
  match a, b with
  | Except.ok x, Except.ok y =>
    if h : x = y then Decidable.isTrue (by rw [h])
    else Decidable.isFalse (fun hh => h (Except.ok.inj hh))
  | Except.error x, Except.error y =>
    if h : x = y then Decidable.isTrue (by rw [h])
    else Decidable.isFalse (fun hh => h (Except.error.inj hh))
  | Except.ok _, Except.error _ => Decidable.isFalse (fun hh => Except.noConfusion hh)
  | Except.error _, Except.ok _ => Decidable.isFalse (fun hh => Except.noConfusion hh)

/-- `dict.get(key, default)`: Python keeps the last duplicate key of a JSON
object, so lookup scans from the right. -/
def jsonGet (fields : List (Str × Json)) (key : Str) (dflt : Json) : Json :=
  match fields.reverse.find? (fun kv => kv.1 = key) with
  | some kv => kv.2
  | none => dflt

/-- Python truthiness of a decoded JSON value (`if not condition:`). -/
def pyFalsy : Json → Bool
  | Json.null => true
  | Json.bool b => !b
  | Json.num q => q == 0
  | Json.str s => s.isEmpty
  | Json.arr items => items.isEmpty
  | Json.obj fields => fields.isEmpty

/-- Parse the fractional-digit tail of a float literal. -/
def fracVal : List Char → Option Rat
  | [] => some 0
  | c :: cs =>
    if c.isDigit then
      match fracVal cs with
      | some q => some (((c.toNat - '0'.toNat : Nat) + q) / 10)
      | none => none
    else none

/-- Digits to a natural number, most significant first; `none` on a
non-digit. -/
def digitsValAux (acc : Nat) : List Char → Option Nat
  | [] => some acc
  | c :: cs =>
    if c.isDigit then digitsValAux (acc * 10 + (c.toNat - '0'.toNat)) cs
    else none

/-- Digits to a natural number, `none` on a non-digit. -/
def digitsVal (s : List Char) : Option Nat := digitsValAux 0 s

/-- Numeric-string parsing for Python's `float()` on the literal forms the
repository's data can contain: optional sign, digits, optional fraction.
Anything else is a `ValueError`. -/
def floatOfStr (s : Str) : Except String Rat :=
  let s := s.dropWhile (· = ' ') |>.reverse.dropWhile (· = ' ') |>.reverse
  let (sign, body) : Rat × Str :=
    match s with
    | '-' :: rest => (-1, rest)
    | '+' :: rest => (1, rest)
    | _ => (1, s)
  let intPart := body.takeWhile (·.isDigit)
  let rest := body.dropWhile (·.isDigit)
  if body.isEmpty then Except.error "ValueError: could not convert string to float"
  else
    match rest with
    | [] =>
      match digitsVal intPart with
      | some n => Except.ok (sign * n)
      | none => Except.error "ValueError: could not convert string to float"
    | '.' :: fracs =>
      if intPart.isEmpty ∧ fracs.isEmpty then
        Except.error "ValueError: could not convert string to float"
      else if fracs.all (·.isDigit) then
        match digitsVal intPart, fracVal fracs with
        | some n, some q => Except.ok (sign * (n + q / 1))
        | _, _ => Except.error "ValueError: could not convert string to float"
      else Except.error "ValueError: could not convert string to float"
    | _ => Except.error "ValueError: could not convert string to float"

/-- Python `float(x)` on a decoded JSON value: numbers and booleans convert,
numeric strings parse, everything else raises. -/
def pyFloat : Json → Except String Rat
  | Json.num q => Except.ok q
  | Json.bool b => Except.ok (if b then 1 else 0)
  | Json.str s => floatOfStr s
  | _ => Except.error "TypeError: float() argument"

/-! ## The regex fragment (`re.search`, case-insensitive) -/

/-- Regular expressions over the fragment used by the repository. -/
inductive RE where
  | emp
  | eps
  | chr (c : Char)
  | dot
  | cls (cs : List Char)
  | alt (a b : RE)
  | cat (a b : RE)
  | star (a : RE)
deriving DecidableEq, Repr

/-- Does the regex accept the empty string? -/
def RE.nullable : RE → Bool
  | .emp => false
  | .eps => true
  | .chr _ => false
  | .dot => false
  | .cls _ => false
  | .alt a b => a.nullable || b.nullable
  | .cat a b => a.nullable && b.nullable
  | .star _ => true

/-- Brzozowski derivative, comparing characters case-insensitively (every
modelled call site passes `re.IGNORECASE` or inlines `(?i)`). -/
def RE.deriv : RE → Char → RE
  | .emp, _ => .emp
  | .eps, _ => .emp
  | .chr d, c => if lowerCh d = lowerCh c then .eps else .emp
  | .dot, c => if c = Char.ofNat 10 then .emp else .eps
  | .cls cs, c => if cs.any (fun d => lowerCh d = lowerCh c) then .eps else .emp
  | .alt a b, c => .alt (a.deriv c) (b.deriv c)
  | .cat a b, c =>
    if a.nullable then .alt (.cat (a.deriv c) b) (b.deriv c)
    else .cat (a.deriv c) b
  | .star a, c => .cat (a.deriv c) (.star a)

/-- Does some prefix of the input match the regex? -/
def RE.matchesPref (r : RE) : Str → Bool
  | [] => r.nullable
  | c :: cs => r.nullable || (r.deriv c).matchesPref cs

/-- Does the regex match somewhere inside the input (`re.search`)? -/
def RE.searchIn (r : RE) : Str → Bool
  | [] => r.nullable
  | c :: cs => r.matchesPref (c :: cs) || r.searchIn cs

/-- Whitespace class `\s`. -/
def wsClass : List Char := [' ', '\t', '\n', '\r', Char.ofNat 11, Char.ofNat 12]

/-- Digit class `\d`. -/
def digitClass : List Char := ['0', '1', '2', '3', '4', '5', '6', '7', '8', '9']

/-- Apply one postfix operator to a parsed atom. -/
def applyPostfix (r : RE) : Char → RE
  | '?' => RE.alt r RE.eps
  | '*' => RE.star r
  | _ => RE.cat r (RE.star r)

mutual

/-- Parse an alternation (`seq ('|' seq)*`); stops at `)` or end of input. -/
def parseAlt (fuel : Nat) (cs : List Char) : Except String (RE × List Char) :=
  match fuel with
  | 0 => Except.error "re.error: fuel"
  | fuel + 1 => do
    let (r, rest) ← parseSeq fuel cs
    match rest with
    | '|' :: rest' => do
      let (r', rest'') ← parseAlt fuel rest'
      Except.ok (RE.alt r r', rest'')
    | _ => Except.ok (r, rest)

/-- Parse a concatenation of postfixed atoms; stops at `|`, `)` or end. -/
def parseSeq (fuel : Nat) (cs : List Char) : Except String (RE × List Char) :=
  match fuel with
  | 0 => Except.error "re.error: fuel"
  | fuel + 1 =>
    match cs with
    | [] => Except.ok (RE.eps, [])
    | '|' :: _ => Except.ok (RE.eps, cs)
    | ')' :: _ => Except.ok (RE.eps, cs)
    | _ => do
      let (a, rest) ← parseAtom fuel cs
      let (a, rest) :=
        match rest with
        | c :: rest' =>
          if c = '?' ∨ c = '*' ∨ c = '+' then (applyPostfix a c, rest')
          else (a, rest)
        | [] => (a, [])
      let (b, rest') ← parseSeq fuel rest
      Except.ok (RE.cat a b, rest')

/-- Parse one atom: a group, an escape, or a literal character. -/
def parseAtom (fuel : Nat) (cs : List Char) : Except String (RE × List Char) :=
  match fuel with
  | 0 => Except.error "re.error: fuel"
  | fuel + 1 =>
    match cs with
    | [] => Except.error "re.error: unexpected end"
    | '(' :: rest => do
      let rest :=
        match rest with
        | '?' :: ':' :: rest' => rest'
        | _ => rest
      let (r, rest') ← parseAlt fuel rest
      match rest' with
      | ')' :: rest'' => Except.ok (r, rest'')
      | _ => Except.error "re.error: missing ), unterminated subpattern"
    | '\\' :: e :: rest =>
      if e = 's' then Except.ok (RE.cls wsClass, rest)
      else if e = 'd' then Except.ok (RE.cls digitClass, rest)
      else if e.isAlpha ∨ e.isDigit then Except.error "re.error: bad escape"
      else Except.ok (RE.chr e, rest)
    | '\\' :: [] => Except.error "re.error: bad escape (end of pattern)"
    | '?' :: _ => Except.error "re.error: nothing to repeat"
    | '*' :: _ => Except.error "re.error: nothing to repeat"
    | '+' :: _ => Except.error "re.error: nothing to repeat"
    | '.' :: rest => Except.ok (RE.dot, rest)
    | c :: rest => Except.ok (RE.chr c, rest)

end

/-- Compile a pattern string: strip a leading `(?i)` (every modelled call is
case-insensitive anyway), then parse the fragment grammar. -/
def parseRegex (p : Str) : Except String RE :=
  let p := match p with
    | '(' :: '?' :: 'i' :: ')' :: rest => rest
    | _ => p
  match parseAlt (3 * p.length + 9) p with
  | Except.ok (r, []) => Except.ok r
  | Except.ok (_, _) => Except.error "re.error: unbalanced parenthesis"
  | Except.error e => Except.error e

/-- `re.search(pattern, text, re.IGNORECASE)`: compile, then search anywhere;
a malformed pattern raises `re.error`. -/
def reSearch (p : Str) (text : Str) : Except String Bool :=
  (parseRegex p).map (fun r => r.searchIn text)

/-- Python `needle in haystack` on strings: contiguous substring test. -/
def strContains (hay needle : Str) : Bool :=
  match hay with
  | [] => needle.isEmpty
  | _ :: t => needle.isPrefixOf hay || strContains t needle

/-- `pattern.lower() in description.lower()` — case-insensitive substring. -/
def substrCI (p : Str) (text : Str) : Bool :=
  strContains (lowerStr text) (lowerStr p)

/-! ## Calendar dates (`datetime.date` / `datetime.datetime`) -/

/-- A Python `datetime.date`. -/
structure PyDate where
  year : Int
  month : Nat
  day : Nat
deriving DecidableEq

/-- A Python `datetime.datetime`; seconds and finer are irrelevant to the
modelled code, which only ever compares `.date()` projections. -/
structure PyDateTime where
  year : Int
  month : Nat
  day : Nat
  hour : Nat
  minute : Nat
deriving DecidableEq

/-- `datetime.date()`. -/
def PyDateTime.date (d : PyDateTime) : PyDate := ⟨d.year, d.month, d.day⟩

/-- Lexicographic `<` on dates, as Python compares `date` objects. -/
def dateLt (a b : PyDate) : Bool :=
  if a.year < b.year then true
  else if b.year < a.year then false
  else if a.month < b.month then true
  else if b.month < a.month then false
  else a.day < b.day

/-- Gregorian leap year, as `datetime` validates day-of-month. -/
def isLeap (y : Int) : Bool :=
  y % 4 == 0 && (y % 100 != 0 || y % 400 == 0)

/-- Days in a month of a given year. -/
def daysInMonth (y : Int) (m : Nat) : Nat :=
  if m = 2 then (if isLeap y then 29 else 28)
  else if m = 4 ∨ m = 6 ∨ m = 9 ∨ m = 11 then 30
  else 31

/-- Split a string at every dash. -/
def splitDash : Str → List Str
  | [] => [[]]
  | c :: rest =>
    if c = '-' then [] :: splitDash rest
    else
      match splitDash rest with
      | [] => [[c]]
      | p :: ps => (c :: p) :: ps

/-- `datetime.strptime(value, '%Y-%m-%d')`, returning `none` where Python
raises `ValueError`: exactly three dash-separated fields, a four-digit year,
one- or two-digit month `1..12` and day `1..31`, the day also valid for the
month, and nothing left over. -/
def strpDate (s : Str) : Option PyDate :=
  match splitDash s with
  | [ys, ms, ds] =>
    if ys.length = 4 ∧ ys.all (·.isDigit) ∧
       1 ≤ ms.length ∧ ms.length ≤ 2 ∧ ms.all (·.isDigit) ∧
       1 ≤ ds.length ∧ ds.length ≤ 2 ∧ ds.all (·.isDigit) then
      match digitsVal ys, digitsVal ms, digitsVal ds with
      | some y, some m, some d =>
        if 1 ≤ m ∧ m ≤ 12 ∧ 1 ≤ d ∧ d ≤ daysInMonth (Int.ofNat y) m then
          some ⟨Int.ofNat y, m, d⟩
        else none
      | _, _, _ => none
    else none
  | _ => none

/-! ## `transaction_rules.py` — the conditional rules engine -/

/-- `TransactionRule` (dataclass).  The scalar fields carry their documented
types; `_parse_rule` itself stores whatever JSON values were supplied, so
`parseRule` below rejects ill-typed scalar fields that Python would defer
failing on.  The two condition fields keep their raw JSON, as the engine
inspects them dynamically. -/
structure TransactionRule where
  name : Str
  pattern : Str
  category : Str
  priority : Rat := 0
  description : Option Str := none
  amount_condition : Option Json := none
  date_condition : Option Json := none
  is_regex : Bool := true

/-- `_check_amount_condition`: an absent or falsy condition passes; the
condition must be a dict; `float(value)` may raise; an unrecognized operator
yields `False`. -/
def checkAmountCondition (amount : Rat) (condition : Option Json) : Except String Bool :=
  match condition with
  | none => Except.ok true
  | some c =>
    if pyFalsy c then Except.ok true
    else
      match c with
      | Json.obj fields =>
        let op := jsonGet fields (txt "operator") (Json.str (txt "=="))
        match pyFloat (jsonGet fields (txt "value") (Json.num 0)) with
        | Except.error e => Except.error e
        | Except.ok value =>
          Except.ok (match op with
            | Json.str s =>
              if s = txt "==" then decide (amount = value)
              else if s = txt ">" then decide (amount > value)
              else if s = txt ">=" then decide (amount ≥ value)
              else if s = txt "<" then decide (amount < value)
              else if s = txt "<=" then decide (amount ≤ value)
              else if s = txt "!=" then decide (amount ≠ value)
              else false
            | _ => false)
      | _ => Except.error "AttributeError: no attribute get"

/-- `_check_date_condition`: an absent or falsy condition passes; the value
must be a string or `strptime` raises `TypeError` (only `ValueError` is
caught); a string that fails to parse makes the predicate `False`; comparisons
use the `.date()` projections; `!=` and unknown operators yield `False`. -/
def checkDateCondition (date : PyDateTime) (condition : Option Json) : Except String Bool :=
  match condition with
  | none => Except.ok true
  | some c =>
    if pyFalsy c then Except.ok true
    else
      match c with
      | Json.obj fields =>
        let op := jsonGet fields (txt "operator") (Json.str (txt "=="))
        let value := jsonGet fields (txt "value") (Json.str [])
        match value with
        | Json.str s =>
          match strpDate s with
          | none => Except.ok false
          | some target =>
            Except.ok (match op with
              | Json.str o =>
                if o = txt "==" then decide (date.date = target)
                else if o = txt ">" then dateLt target date.date
                else if o = txt ">=" then !dateLt date.date target
                else if o = txt "<" then dateLt date.date target
                else if o = txt "<=" then !dateLt target date.date
                else false
              | _ => false)
        | _ => Except.error "TypeError: strptime() argument must be str"
      | _ => Except.error "AttributeError: no attribute get"

/-- `apply_rules`: walk the (pre-sorted) rule list; `continue` past any rule
whose text, amount or date predicate fails; return the first full match's
category, `None` after exhausting the list.  Predicate evaluation can raise
(`re.error` from a malformed pattern, `ValueError`/`TypeError` from a
malformed condition value), which aborts the whole call. -/
def applyRules : List TransactionRule → Str → Rat → PyDateTime → Except String (Option Str)
  | [], _, _, _ => Except.ok none
  | r :: rs, desc, amount, date =>
    match (if r.is_regex then reSearch r.pattern desc
           else Except.ok (substrCI r.pattern desc)) with
    | Except.error e => Except.error e
    | Except.ok textOk =>
      if !textOk then applyRules rs desc amount date
      else
        match checkAmountCondition amount r.amount_condition with
        | Except.error e => Except.error e
        | Except.ok amtOk =>
          if !amtOk then applyRules rs desc amount date
          else
            match checkDateCondition date r.date_condition with
            | Except.error e => Except.error e
            | Except.ok dOk =>
              if !dOk then applyRules rs desc amount date
              else Except.ok (some r.category)

/-- Stable insertion of a rule into a priority-descending list: the inserted
rule (which is earlier in the original order) goes before later rules of
equal priority. -/
def insertRule (r : TransactionRule) : List TransactionRule → List TransactionRule
  | [] => [r]
  | x :: xs => if r.priority ≥ x.priority then r :: x :: xs else x :: insertRule r xs

/-- `list.sort(key=lambda x: x.priority, reverse=True)` — Python's sort is
stable, modelled by stable insertion sort, descending by priority. -/
def pySortRules (l : List TransactionRule) : List TransactionRule :=
  l.foldr insertRule []

/-- `add_rule`: append, then re-sort. -/
def addRule (rules : List TransactionRule) (r : TransactionRule) : List TransactionRule :=
  pySortRules (rules ++ [r])

/-- Read a JSON value at a scalar `str` field. -/
def asStr : Json → Except String Str
  | Json.str s => Except.ok s
  | _ => Except.error "TypeError: expected str"

/-- Read a JSON value at a scalar numeric field. -/
def asNum : Json → Except String Rat
  | Json.num q => Except.ok q
  | _ => Except.error "TypeError: expected number"

/-- Read a JSON value at a scalar bool field. -/
def asBool : Json → Except String Bool
  | Json.bool b => Except.ok b
  | _ => Except.error "TypeError: expected bool"

/-- `_parse_rule`: the item must be a dict (a non-dict has no `.get` and the
resulting `AttributeError` is re-raised by `load_rules`); each field falls
back to its default when missing, and an explicit JSON `null` behaves like a
missing optional field. -/
def parseRule (j : Json) : Except String TransactionRule :=
  match j with
  | Json.obj fields => do
    let name ← asStr (jsonGet fields (txt "name") (Json.str []))
    let pattern ← asStr (jsonGet fields (txt "pattern") (Json.str []))
    let category ← asStr (jsonGet fields (txt "category") (Json.str (txt "Other")))
    let priority ← asNum (jsonGet fields (txt "priority") (Json.num 0))
    let description ←
      match jsonGet fields (txt "description") Json.null with
      | Json.null => Except.ok none
      | v => (asStr v).map some
    let amount_condition :=
      match jsonGet fields (txt "amount_condition") Json.null with
      | Json.null => none
      | v => some v
    let date_condition :=
      match jsonGet fields (txt "date_condition") Json.null with
      | Json.null => none
      | v => some v
    let is_regex ← asBool (jsonGet fields (txt "is_regex") (Json.bool true))
    Except.ok { name, pattern, category, priority, description,
                amount_condition, date_condition, is_regex }
  | _ => Except.error "AttributeError: no attribute get"

/-- What `open` + `json.load` produced for the rules file. -/
inductive RulesFile where
  | missing
  | unparseable
  | parsed (j : Json)

/-- Python `for rule in rules_data`: arrays iterate their items, dicts their
keys, strings their characters; anything else raises `TypeError`. -/
def pyIter : Json → Except String (List Json)
  | Json.arr items => Except.ok items
  | Json.obj fields => Except.ok (fields.map (fun kv => Json.str kv.1))
  | Json.str s => Except.ok (s.map (fun c => Json.str [c]))
  | _ => Except.error "TypeError: not iterable"

/-- `load_rules`: a missing file (`FileNotFoundError`), undecodable JSON
(`JSONDecodeError`) and any per-item parse failure are all caught and
re-raised as `ValueError("Failed to load rules ...")`; on success the rules
are sorted by descending priority. -/
def loadRules (file : RulesFile) : Except String (List TransactionRule) :=
  match file with
  | RulesFile.missing =>
    Except.error "ValueError: Failed to load rules: FileNotFoundError"
  | RulesFile.unparseable =>
    Except.error "ValueError: Failed to load rules: JSONDecodeError"
  | RulesFile.parsed j =>
    match (do
      let items ← pyIter j
      let rules ← items.mapM parseRule
      Except.ok (pySortRules rules) : Except String (List TransactionRule)) with
    | Except.ok rules => Except.ok rules
    | Except.error e => Except.error ("ValueError: Failed to load rules: " ++ e)

/-! ### Well-formedness: the conditions under which evaluation cannot raise -/

/-- The text predicate of the rule cannot raise: either a literal pattern, or
a regex the engine compiles. -/
def noRaiseText (r : TransactionRule) : Bool :=
  !r.is_regex || (parseRegex r.pattern).isOk

/-- A non-falsy amount condition whose `float(value)` conversion succeeds:
a dict with a convertible value. -/
def amountCondRaw : Json → Bool
  | Json.obj fields => (pyFloat (jsonGet fields (txt "value") (Json.num 0))).isOk
  | _ => false

/-- The amount condition cannot raise: absent, falsy, or a dict whose value
converts with `float()`. -/
def noRaiseAmount : Option Json → Bool
  | none => true
  | some c => pyFalsy c || amountCondRaw c

/-- A non-falsy date condition whose `strptime` call gets a string argument:
a dict with a string value. -/
def dateCondRaw : Json → Bool
  | Json.obj fields =>
    (match jsonGet fields (txt "value") (Json.str []) with
     | Json.str _ => true
     | _ => false)
  | _ => false

/-- The date condition cannot raise: absent, falsy, or a dict whose value is
a string (an unparseable string is a caught `ValueError`, not a raise). -/
def noRaiseDate : Option Json → Bool
  | none => true
  | some c => pyFalsy c || dateCondRaw c

/-- A rule none of whose predicates can raise. -/
def wfRule (r : TransactionRule) : Bool :=
  noRaiseText r && noRaiseAmount r.amount_condition && noRaiseDate r.date_condition

/-- Boolean text predicate (meaningful under `noRaiseText`). -/
def textHit (r : TransactionRule) (desc : Str) : Bool :=
  if r.is_regex then
    match reSearch r.pattern desc with
    | Except.ok b => b
    | Except.error _ => false
  else substrCI r.pattern desc

/-- Boolean amount predicate (meaningful under `noRaiseAmount`). -/
def amountHit (amount : Rat) (condition : Option Json) : Bool :=
  match checkAmountCondition amount condition with
  | Except.ok b => b
  | Except.error _ => false

/-- Boolean date predicate (meaningful under `noRaiseDate`). -/
def dateHit (date : PyDateTime) (condition : Option Json) : Bool :=
  match checkDateCondition date condition with
  | Except.ok b => b
  | Except.error _ => false

/-- A rule fully matches a transaction: the conjunction of its predicates. -/
def ruleHit (r : TransactionRule) (desc : Str) (amount : Rat) (date : PyDateTime) : Bool :=
  textHit r desc && amountHit amount r.amount_condition && dateHit date r.date_condition

/-- The category of the first fully-matching rule, if any. -/
def firstMatchCat (rules : List TransactionRule) (desc : Str) (amount : Rat)
    (date : PyDateTime) : Option Str :=
  (rules.find? (fun r => ruleHit r desc amount date)).map (·.category)

/-! ### The sample rules of `test_transaction_rules.py` -/

/-- Rule "Test Groceries" from the test suite. -/
def ruleGroceries : TransactionRule :=
  { name := txt "Test Groceries", pattern := txt "COLES|WOOLWORTHS",
    category := txt "Groceries", priority := 1 }

/-- Rule "High Value Groceries" from the test suite. -/
def ruleHighValue : TransactionRule :=
  { name := txt "High Value Groceries", pattern := txt "COLES|WOOLWORTHS",
    category := txt "Special Groceries", priority := 2,
    amount_condition := some (Json.obj
      [(txt "operator", Json.str (txt ">=")), (txt "value", Json.num 100)]) }

/-- Rule "Date Specific" from the test suite. -/
def ruleDateSpecific : TransactionRule :=
  { name := txt "Date Specific", pattern := txt "TEST",
    category := txt "Special", priority := 1,
    date_condition := some (Json.obj
      [(txt "operator", Json.str (txt "==")), (txt "value", Json.str (txt "2024-01-01"))]) }

/-- The `sample_rules` fixture: three `add_rule` calls on a fresh engine. -/
def sampleRules : List TransactionRule :=
  addRule (addRule (addRule [] ruleGroceries) ruleHighValue) ruleDateSpecific

/-- An arbitrary transaction datetime (`datetime.now()` in the tests). -/
def someDay : PyDateTime := ⟨2024, 3, 5, 10, 30⟩


/-! ## `transaction_categories.py` — patterns, categories, config loading -/

/-- The `mcdonalds` merchant pattern (spliced apostrophe). -/
def mcdPattern : Str := txt "(?i)mcdonalds|mcdonald" ++ [apos] ++ txt "s|maccas"

/-- The canonical McDonald's merchant name. -/
def mcdName : Str := txt "McDonald" ++ [apos] ++ txt "s"

/-- The `mcdonald's` category keyword. -/
def mcdKeyword : Str := txt "mcdonald" ++ [apos] ++ txt "s"

/-- `DEFAULT_MERCHANT_PATTERNS`: the built-in ordered merchant table. -/
def DEFAULT_MERCHANT_PATTERNS : List (Str × Str) := [
  (txt "(?i)woolworths(?:\\s+supermarket)?|woolies", txt "Woolworths"),
  (txt "(?i)coles(?:\\s+supermarket)?", txt "Coles"),
  (txt "(?i)aldi(?:\\s+store)?", txt "Aldi"),
  (txt "(?i)iga", txt "IGA"),
  (txt "(?i)nestle|nestlé|nestleau|nestleaust", txt "Nestlé Australia"),
  (txt "(?i)nespresso australia", txt "Nespresso Australia"),
  (txt "(?i)soul origin", txt "Soul Origin"),
  (txt "(?i)space kitchen", txt "Space Kitchen"),
  (txt "(?i)bean origin", txt "Bean Origin"),
  (txt "(?i)bliss and espresso macquarie", txt "Bliss and Espresso Macquarie"),
  (txt "(?i)sushi sushi", txt "Sushi Sushi"),
  (txt "(?i)tfc sushi", txt "TFC Sushi"),
  (txt "(?i)zambrero", txt "Zambrero"),
  (txt "(?i)the spence grocer", txt "The Spence Grocer"),
  (mcdPattern, mcdName),
  (txt "(?i)millsandgrills", txt "Mills and Grills"),
  (txt "(?i)dickson taphouse", txt "Dickson Taphouse"),
  (txt "(?i)cafe|coffee", txt "Cafe"),
  (txt "(?i)restaurant|dining", txt "Restaurant"),
  (txt "(?i)pub|tavern", txt "Pub"),
  (txt "(?i)captains flat hote", txt "Captains Flat Hotel"),
  (txt "(?i)petpostaust", txt "PetPost Australia"),
  (txt "(?i)k9 and co adventure", txt "K9 and Co Adventure"),
  (txt "(?i)petstock pty ltd", txt "Petstock Pty Ltd"),
  (txt "(?i)petbarn", txt "Petbarn"),
  (txt "(?i)vet|veterinary", txt "Veterinarian"),
  (txt "(?i)pet warehouse", txt "Pet Warehouse"),
  (txt "(?i)pet circle", txt "Pet Circle"),
  (txt "(?i)pet shop", txt "Pet Shop"),
  (txt "(?i)uber", txt "Uber"),
  (txt "(?i)taxi|cab", txt "Taxi"),
  (txt "(?i)translink|go card", txt "Public Transport"),
  (txt "(?i)transport dickson", txt "Transport Dickson"),
  (txt "(?i)netflix", txt "Netflix"),
  (txt "(?i)spotify", txt "Spotify"),
  (txt "(?i)amazon", txt "Amazon"),
  (txt "(?i)apple\\.com|itunes", txt "Apple"),
  (txt "(?i)ticketek", txt "Ticketek"),
  (txt "(?i)hoyts", txt "Hoyts"),
  (txt "(?i)www\\.endota\\.com\\.au", txt "Endota Spa"),
  (txt "(?i)origin energy", txt "Origin Energy"),
  (txt "(?i)agl", txt "AGL"),
  (txt "(?i)telstra", txt "Telstra"),
  (txt "(?i)optus", txt "Optus"),
  (txt "(?i)belong", txt "Belong"),
  (txt "(?i)7-eleven|7 eleven|-eleven", txt "7-Eleven"),
  (txt "(?i)bp|british petroleum", txt "BP"),
  (txt "(?i)shell", txt "Shell"),
  (txt "(?i)caltex", txt "Caltex"),
  (txt "(?i)united petroleum", txt "United Petroleum"),
  (txt "(?i)accor", txt "Accor"),
  (txt "(?i)amcal|amcal pharmacy", txt "Amcal Pharmacy"),
  (txt "(?i)endota spa", txt "Endota Spa"),
  (txt "(?i)belconnen chiro", txt "Belconnen Chiropractor"),
  (txt "(?i)specsavers", txt "Specsavers"),
  (txt "(?i)bunnings|bunnings warehouse", txt "Bunnings Warehouse"),
  (txt "(?i)mitre 10|mitre10", txt "Mitre 10"),
  (txt "(?i)home hardware", txt "Home Hardware"),
  (txt "(?i)hardware store|hardware shop", txt "Hardware Store"),
  (txt "(?i)jb hi-fi|jb hifi|jbhifi|jb hi fi", txt "JB Hi-Fi"),
  (txt "(?i)harvey norman|harveynorman", txt "Harvey Norman"),
  (txt "(?i)the good guys|good guys", txt "The Good Guys"),
  (txt "(?i)officeworks", txt "Officeworks"),
  (txt "(?i)budget direct", txt "Budget Direct"),
  (txt "(?i)nrma", txt "NRMA"),
  (txt "(?i)racq", txt "RACQ"),
  (txt "(?i)racv", txt "RACV"),
  (txt "(?i)aami", txt "AAMI"),
  (txt "(?i)miles franklin", txt "Miles Franklin"),
  (txt "(?i)bounce holdings", txt "Bounce Holdings"),
  (txt "(?i)melba tennis club", txt "Melba Tennis Club"),
  (txt "(?i)on the line tennis melba", txt "On The Line Tennis Melba"),
  (txt "(?i)school|college|university|tafe", txt "Educational Institution"),
  (txt "(?i)harris scarfe", txt "Harris Scarfe"),
  (txt "(?i)best and less", txt "Best and Less"),
  (txt "(?i)smiggle pty ltd", txt "Smiggle"),
  (txt "(?i)canberra southern yarralumla", txt "Canberra Southern Yarralumla"),
  (txt "(?i)rocksalt", txt "Rocksalt"),
  (txt "(?i)via dolce canberra", txt "Via Dolce Canberra"),
  (txt "(?i)supermarket", txt "Generic Supermarket")]

/-- `DEFAULT_CATEGORIES`: the built-in ordered category→keywords mapping
(Python dicts iterate in insertion order). -/
def DEFAULT_CATEGORIES : List (Str × List Str) := [
  (txt "Groceries", [txt "woolworths", txt "coles", txt "aldi", txt "iga",
    txt "supermarket", txt "foodworks", txt "nestle", txt "nestlé",
    txt "nestleau", txt "nespresso australia", txt "supa express"]),
  (txt "Dining", [txt "restaurant", txt "cafe", txt "coffee", txt "pub",
    txt "tavern", txt "bistro", txt "soul origin", txt "space kitchen",
    txt "bean origin", txt "bliss and espresso macquarie", txt "sushi sushi",
    txt "tfc sushi", txt "zambrero", txt "the spence grocer", txt "mcdonalds",
    mcdKeyword, txt "maccas", txt "millsandgrills", txt "mills and grills",
    txt "dickson taphouse", txt "canberra southern yarralumla", txt "rocksalt",
    txt "via dolce canberra", txt "captains flat hotel", txt "bravo vino pty ltd"]),
  (txt "Transport", [txt "uber", txt "taxi", txt "cab", txt "translink",
    txt "go card", txt "train", txt "bus", txt "parking", txt "car park",
    txt "parking fee", txt "parking ticket", txt "parking meter",
    txt "parking permit", txt "transport dickson"]),
  (txt "Entertainment", [txt "netflix", txt "spotify", txt "cinema",
    txt "movie", txt "theatre", txt "ticketek", txt "hoyts"]),
  (txt "Shopping", [txt "amazon", txt "ebay", txt "target", txt "kmart",
    txt "big w", txt "david jones", txt "myer", txt "harris scarfe",
    txt "best and less", txt "smiggle", txt "bunnings", txt "mitre 10",
    txt "home hardware", txt "hardware store", txt "hardware shop",
    txt "jb hi-fi", txt "jb hifi", txt "jbhifi", txt "jb hi fi",
    txt "harvey norman", txt "harveynorman", txt "the good guys",
    txt "good guys", txt "officeworks"]),
  (txt "Utilities", [txt "origin energy", txt "agl", txt "telstra",
    txt "optus", txt "belong", txt "electricity", txt "water", txt "gas"]),
  (txt "Health", [txt "pharmacy", txt "chemist", txt "medical", txt "doctor",
    txt "dental", txt "amcal", txt "endota spa", txt "www.endota.com.au",
    txt "belconnen chiro", txt "belconnen chiropractor", txt "specsavers"]),
  (txt "Education", [txt "university", txt "school", txt "college",
    txt "tafe", txt "course", txt "miles franklin", txt "bounce holdings",
    txt "educational institution", txt "melba tennis club",
    txt "on the line tennis melba"]),
  (txt "Insurance", [txt "insurance", txt "budget direct", txt "nrma",
    txt "racq", txt "racv", txt "aami"]),
  (txt "Fuel", [txt "7-eleven", txt "7 eleven", txt "-eleven", txt "bp",
    txt "shell", txt "caltex", txt "united petroleum", txt "petrol",
    txt "service station"]),
  (txt "Holiday", [txt "hotel", txt "motel", txt "resort", txt "accor",
    txt "vacation", txt "holiday", txt "accommodation"]),
  (txt "Pet Expenses", [txt "petpostaust", txt "k9 and co adventure",
    txt "petstock pty ltd", txt "petbarn", txt "vet", txt "veterinary",
    txt "pet warehouse", txt "pet circle", txt "pet shop", txt "pet",
    txt "animal", txt "pet care", txt "pet supplies", txt "animal hospital",
    txt "grooming", txt "pet food", txt "pet accessories", txt "pet medication"]),
  (txt "Other", [])]

/-- Does the object have the key (jsonschema `required`)? -/
def hasKey (fields : List (Str × Json)) (k : Str) : Bool :=
  fields.any (fun kv => kv.1 = k)

/-- One `merchant_patterns` item against `CONFIG_SCHEMA`: an object with
`pattern` and `normalized` present, both strings. -/
def validPatternItem : Json → Bool
  | Json.obj fields =>
    hasKey fields (txt "pattern") && hasKey fields (txt "normalized") &&
    (match jsonGet fields (txt "pattern") Json.null with
     | Json.str _ => true
     | _ => false) &&
    (match jsonGet fields (txt "normalized") Json.null with
     | Json.str _ => true
     | _ => false)
  | _ => false

/-- Is the JSON value a string? -/
def isStrJson : Json → Bool
  | Json.str _ => true
  | _ => false

/-- One `categories` entry against `CONFIG_SCHEMA`: its value is an array of
strings. -/
def validCategoryEntry (kv : Str × Json) : Bool :=
  match kv.2 with
  | Json.arr items => items.all isStrJson
  | _ => false

/-- The `categories` section against `CONFIG_SCHEMA`: an object whose values
are arrays of strings. -/
def validCategoriesSection : Json → Bool
  | Json.obj fields => fields.all validCategoryEntry
  | _ => false

/-- `jsonschema.validate(config, CONFIG_SCHEMA)` as a boolean. -/
def validateConfig : Json → Bool
  | Json.obj fields =>
    hasKey fields (txt "merchant_patterns") && hasKey fields (txt "categories") &&
    (match jsonGet fields (txt "merchant_patterns") Json.null with
     | Json.arr items => items.all validPatternItem
     | _ => false) &&
    validCategoriesSection (jsonGet fields (txt "categories") Json.null)
  | _ => false

/-- `config.get(key, default)` on a decoded JSON value. -/
def configGet (j : Json) (k : Str) (dflt : Json) : Json :=
  match j with
  | Json.obj fields => jsonGet fields k dflt
  | _ => dflt

/-- `(item['pattern'], item['normalized'])` for one config item (total
because validation has already passed when the source runs it). -/
def extractPatternItem (it : Json) : Str × Str :=
  match it with
  | Json.obj fields =>
    ((match jsonGet fields (txt "pattern") Json.null with
      | Json.str s => s
      | _ => []),
     (match jsonGet fields (txt "normalized") Json.null with
      | Json.str s => s
      | _ => []))
  | _ => ([], [])

/-- `[(item['pattern'], item['normalized']) for item in ...]`. -/
def extractPatterns (j : Json) : List (Str × Str) :=
  match j with
  | Json.arr items => items.map extractPatternItem
  | _ => []

/-- One keyword out of a decoded category value. -/
def extractKeyword (it : Json) : Str :=
  match it with
  | Json.str s => s
  | _ => []

/-- One `categories` entry as an ordered association-list pair. -/
def extractCategoryEntry (kv : Str × Json) : Str × List Str :=
  (kv.1,
   match kv.2 with
   | Json.arr items => items.map extractKeyword
   | _ => [])

/-- The `categories` object as an ordered association list. -/
def extractCategories (j : Json) : List (Str × List Str) :=
  match j with
  | Json.obj fields => fields.map extractCategoryEntry
  | _ => []

/-- What the filesystem+`json.load` produced for `transaction_config.json`. -/
inductive ConfigFile where
  | missing
  | unreadable
  | parsed (j : Json)

/-- The value and console report of `load_custom_config`. -/
structure ConfigLoadResult where
  merchant_patterns : List (Str × Str)
  categories : List (Str × List Str)
  log : List String

/-- `load_custom_config`: a missing file falls back to the built-in defaults
(after writing a default config file, whose own failures are also swallowed);
a file that cannot be read or decoded falls back to the defaults via the
broad `except Exception`; a decoded file that fails schema validation falls
back to the defaults; only a decoded, schema-valid file replaces the tables —
with exactly its own contents.  No branch raises. -/
def loadCustomConfig (file : ConfigFile) : ConfigLoadResult :=
  match file with
  | ConfigFile.missing =>
    ⟨DEFAULT_MERCHANT_PATTERNS, DEFAULT_CATEGORIES,
     ["Configuration file not found, using defaults"]⟩
  | ConfigFile.unreadable =>
    ⟨DEFAULT_MERCHANT_PATTERNS, DEFAULT_CATEGORIES,
     ["Warning: Could not load custom configuration"]⟩
  | ConfigFile.parsed j =>
    if validateConfig j then
      ⟨extractPatterns (configGet j (txt "merchant_patterns") (Json.arr [])),
       extractCategories (configGet j (txt "categories") (Json.obj [])),
       ["Successfully loaded configuration file",
        "Configuration validation successful"]⟩
    else
      ⟨DEFAULT_MERCHANT_PATTERNS, DEFAULT_CATEGORIES,
       ["Successfully loaded configuration file",
        "Warning: Invalid configuration format"]⟩

/-- Drop a literal prefix if present (one `re.sub(r'^...', '', s)` step — the
anchor allows at most one replacement). -/
def stripPrefix1 (p : Str) (s : Str) : Str :=
  if p.isPrefixOf s then s.drop p.length else s

/-- The two payment-gateway prefix strips, in source order: `^SQ \*` then
`^PAYPAL \*`, case-sensitively. -/
def stripGatewayPrefixes (s : Str) : Str :=
  stripPrefix1 (txt "PAYPAL *") (stripPrefix1 (txt "SQ *") s)

/-- The merchant-pattern scan: first pattern whose regex is found anywhere in
the description wins. -/
def findPattern : List (Str × Str) → Str → Except String (Option Str)
  | [], _ => Except.ok none
  | (p, normalized) :: rest, d =>
    match reSearch p d with
    | Except.error e => Except.error e
    | Except.ok hit =>
      if hit then Except.ok (some normalized) else findPattern rest d

/-- `normalize_merchant`: strip gateway prefixes, scan the pattern table in
order, fall back to the stripped description. -/
def normalizeMerchant (patterns : List (Str × Str)) (description : Str) :
    Except String Str :=
  let d := stripGatewayPrefixes description
  match findPattern patterns d with
  | Except.error e => Except.error e
  | Except.ok (some normalized) => Except.ok normalized
  | Except.ok none => Except.ok d

/-- The characters Python's `re.escape` prefixes with a backslash. -/
def reSpecialChars : List Char :=
  ['(', ')', '[', ']', Char.ofNat 123, Char.ofNat 125, '?', '*', '+', '-',
   '|', '^', '$', '\\', '.', '&', '~', '#', ' ', '\t', '\n', '\r',
   Char.ofNat 11, Char.ofNat 12]

/-- `re.escape`. -/
def reEscape (s : Str) : Str :=
  (s.map (fun c => if reSpecialChars.contains c then ['\\', c] else [c])).flatten

/-- `re.search(rf'(?i){re.escape(keyword)}', description)`. -/
def keywordHit (description keyword : Str) : Except String Bool :=
  reSearch (txt "(?i)" ++ reEscape keyword) description

/-- `any(re.search(rf'(?i){re.escape(keyword)}', description) for keyword in
keywords)` — short-circuiting. -/
def anyKeyword (description : Str) : List Str → Except String Bool
  | [] => Except.ok false
  | k :: ks =>
    match keywordHit description k with
    | Except.error e => Except.error e
    | Except.ok h => if h then Except.ok true else anyKeyword description ks

/-- The category loop of `categorize_transaction`: first category with a
matching keyword. -/
def findCategory (description : Str) :
    List (Str × List Str) → Except String (Option Str)
  | [] => Except.ok none
  | (cat, kws) :: rest =>
    match anyKeyword description kws with
    | Except.error e => Except.error e
    | Except.ok h =>
      if h then Except.ok (some cat) else findCategory description rest

/-- `categorize_transaction`: strip gateway prefixes, call
`normalize_merchant` (its result is discarded by the source), then return the
first category with a keyword match, else `"Other"`. -/
def categorizeTransaction (mpatterns : List (Str × Str))
    (cats : List (Str × List Str)) (description : Str) : Except String Str :=
  let d := stripGatewayPrefixes description
  match normalizeMerchant mpatterns d with
  | Except.error e => Except.error e
  | Except.ok _ =>
    match findCategory d cats with
    | Except.error e => Except.error e
    | Except.ok (some c) => Except.ok c
    | Except.ok none => Except.ok (txt "Other")

/-! ## `ccs_extract.py` — `_categorize_transaction` -/

/-- The inner loop of the keyword fallback: `re.search(pattern, description,
re.IGNORECASE)` over a category's raw (unescaped) keyword patterns. -/
def anyRawPattern (description : Str) : List Str → Except String Bool
  | [] => Except.ok false
  | p :: ps =>
    match reSearch p description with
    | Except.error e => Except.error e
    | Except.ok h => if h then Except.ok true else anyRawPattern description ps

/-- The keyword fallback of `_categorize_transaction`: first category one of
whose patterns matches, defaulting to `"Other"`. -/
def fallbackCategorize (cats : List (Str × List Str)) (description : Str) :
    Except String Str :=
  match cats with
  | [] => Except.ok (txt "Other")
  | (cat, ps) :: rest =>
    match anyRawPattern description ps with
    | Except.error e => Except.error e
    | Except.ok h =>
      if h then Except.ok cat else fallbackCategorize rest description

/-- `CreditCardStatementExtractor._categorize_transaction`: apply the rules
engine; `if category:` (truthiness — `None` and the empty string both fail)
return it, else run the keyword fallback. -/
def categorizeWithRules (cats : List (Str × List Str))
    (rules : List TransactionRule) (description : Str) (amount : Rat)
    (date : PyDateTime) : Except String Str :=
  match applyRules rules description amount date with
  | Except.error e => Except.error e
  | Except.ok (some category) =>
    if !category.isEmpty then Except.ok category
    else fallbackCategorize cats description
  | Except.ok none => fallbackCategorize cats description


/-! ## Specification-side selectors and concrete fixtures -/

/-- Boolean view of `re.search` (meaningful when the pattern compiles). -/
def reHit (p d : Str) : Bool :=
  match reSearch p d with
  | Except.ok b => b
  | Except.error _ => false

/-- The canonical name of the first merchant pattern matching a stripped
description, if any. -/
def patFirst (patterns : List (Str × Str)) (d : Str) : Option Str :=
  (patterns.find? (fun pq => reHit pq.1 d)).map (·.2)

/-- Boolean view of one keyword test of `categorize_transaction` (always
meaningful: escaped keywords compile). -/
def kwHit (d k : Str) : Bool :=
  match keywordHit d k with
  | Except.ok b => b
  | Except.error _ => false

/-- The first category with a matching keyword, if any. -/
def catFirst (cats : List (Str × List Str)) (d : Str) : Option Str :=
  (cats.find? (fun ck => ck.2.any (kwHit d))).map (·.1)

/-- The rule has a non-falsy dict date condition whose string value fails
`strptime` — the caught-`ValueError` situation of `_check_date_condition`. -/
def dateCondUnparseable (r : TransactionRule) : Bool :=
  match r.date_condition with
  | some (Json.obj fields) =>
    !pyFalsy (Json.obj fields) &&
    (match jsonGet fields (txt "value") (Json.str []) with
     | Json.str s => (strpDate s).isNone
     | _ => false)
  | _ => false

/-- The JSON encoding of one custom merchant pattern, per the documented
config format `{"pattern": ..., "normalized": ...}`. -/
def encodePatternItem (pq : Str × Str) : Json :=
  Json.obj [(txt "pattern", Json.str pq.1), (txt "normalized", Json.str pq.2)]

/-- The JSON encoding of a custom `categories` section. -/
def encodeCategories (cats : List (Str × List Str)) : Json :=
  Json.obj (cats.map (fun ck => (ck.1, Json.arr (ck.2.map Json.str))))

/-- The JSON encoding of a full custom config file, per the documented
external interface. -/
def encodeConfig (pats : List (Str × Str)) (cats : List (Str × List Str)) : Json :=
  Json.obj [(txt "merchant_patterns", Json.arr (pats.map encodePatternItem)),
            (txt "categories", encodeCategories cats)]

/-- A one-pattern, one-category custom config file. -/
def c1ConfigJson : Json :=
  encodeConfig [(txt "(?i)mycafe", txt "My Cafe")] [(txt "MyCat", [txt "mycafe"])]

/-- A syntactically valid rules file whose single rule has an amount
condition value `"abc"` that `float()` cannot convert. -/
def badAmountRulesJson : Json :=
  Json.arr [Json.obj
    [(txt "name", Json.str (txt "bad")),
     (txt "pattern", Json.str (txt "X")),
     (txt "category", Json.str (txt "C")),
     (txt "amount_condition", Json.obj
       [(txt "operator", Json.str (txt ">=")), (txt "value", Json.str (txt "abc"))])]]

/-- The rule `load_rules` builds from `badAmountRulesJson`. -/
def badAmountRule : TransactionRule :=
  { name := txt "bad", pattern := txt "X", category := txt "C",
    amount_condition := some (Json.obj
      [(txt "operator", Json.str (txt ">=")), (txt "value", Json.str (txt "abc"))]) }

/-- A matching rule whose category is the empty string. -/
def emptyCatRule : TransactionRule :=
  { name := txt "empty", pattern := txt "X", category := [], priority := 5 }

/-- A rule whose date condition value cannot be parsed by `strptime`. -/
def ruleBadDate : TransactionRule :=
  { name := txt "baddate", pattern := txt "X", category := txt "C",
    date_condition := some (Json.obj
      [(txt "operator", Json.str (txt "==")),
       (txt "value", Json.str (txt "not-a-date"))]) }

/-! ## Behavioural checks mirroring the Python test suite -/

example : txt "ab" = ['a', 'b'] := by decide
example : reSearch (txt "COLES|WOOLWORTHS") (txt "COLES SUPERMARKET") = Except.ok true := by decide
example : reSearch (txt "COLES|WOOLWORTHS") (txt "UNKNOWN STORE") = Except.ok false := by decide
example : reSearch (txt "(?i)woolworths(?:\\s+supermarket)?|woolies") (txt "WOOLIES") = Except.ok true := by decide
example : reSearch (txt "(") (txt "x") = Except.error "re.error: missing ), unterminated subpattern" := by decide
example : substrCI (txt "EXACT MATCH") (txt "THIS IS AN EXACT MATCH TEST") = true := by decide
example : substrCI (txt "EXACT MATCH") (txt "EXACT") = false := by decide

example : applyRules sampleRules (txt "COLES SUPERMARKET") 50 someDay
    = Except.ok (some (txt "Groceries")) := by decide
example : applyRules sampleRules (txt "UNKNOWN STORE") 50 someDay
    = Except.ok none := by decide
example : applyRules sampleRules (txt "COLES SUPERMARKET") 150 someDay
    = Except.ok (some (txt "Special Groceries")) := by decide
example : applyRules sampleRules (txt "TEST TRANSACTION") 50 ⟨2024, 1, 1, 0, 0⟩
    = Except.ok (some (txt "Special")) := by decide
example : applyRules sampleRules (txt "TEST TRANSACTION") 50 ⟨2024, 1, 1, 23, 59⟩
    = Except.ok (some (txt "Special")) := by decide
example : applyRules sampleRules (txt "TEST TRANSACTION") 50 ⟨2024, 1, 2, 0, 0⟩
    = Except.ok none := by decide
example : strpDate (txt "2024-01-01") = some ⟨2024, 1, 1⟩ := by decide
example : strpDate (txt "2024-13-01") = none := by decide
example : strpDate (txt "2024-02-30") = none := by decide
example : strpDate (txt "not-a-date") = none := by decide
example : loadRules (RulesFile.parsed (Json.arr [Json.obj
    [(txt "name", Json.str (txt "Test Rule")),
     (txt "pattern", Json.str (txt "TEST")),
     (txt "category", Json.str (txt "Test Category")),
     (txt "priority", Json.num 1)]]))
    = Except.ok [{ name := txt "Test Rule", pattern := txt "TEST",
                   category := txt "Test Category", priority := 1 }] := by rfl

/-! ## Evaluation lemmas -/

/-- Under `noRaiseText`, the text check of `apply_rules` evaluates to the
boolean text predicate. -/
theorem textStep_eq (r : TransactionRule) (desc : Str) (h : noRaiseText r = true) :
    (if r.is_regex then reSearch r.pattern desc
     else Except.ok (substrCI r.pattern desc)) = Except.ok (textHit r desc) := by
  unfold noRaiseText at h
  by_cases hr : r.is_regex
  · simp only [hr, Bool.not_true, Bool.false_or] at h
    cases hp : parseRegex r.pattern with
    | ok re => simp [hr, textHit, reSearch, hp, Except.map]
    | error e => rw [hp] at h; simp [Except.isOk, Except.toBool] at h
  · simp [hr, textHit]

/-- Under `noRaiseAmount`, `_check_amount_condition` evaluates to the boolean
amount predicate. -/
theorem checkAmount_eq (amount : Rat) (c : Option Json) (h : noRaiseAmount c = true) :
    checkAmountCondition amount c = Except.ok (amountHit amount c) := by
  unfold amountHit
  cases c with
  | none => rfl
  | some j =>
    by_cases hf : pyFalsy j
    · simp [checkAmountCondition, hf]
    · simp only [Bool.not_eq_true] at hf
      have h1 : (pyFalsy j || amountCondRaw j) = true := h
      rw [hf, Bool.false_or] at h1
      cases j with
      | obj fields =>
        have h2 : (pyFloat (jsonGet fields (txt "value") (Json.num 0))).isOk = true := h1
        cases hv : pyFloat (jsonGet fields (txt "value") (Json.num 0)) with
        | ok v => simp [checkAmountCondition, hf, hv]
        | error e => rw [hv] at h2; simp [Except.isOk, Except.toBool] at h2
      | null => simp [amountCondRaw] at h1
      | bool b => simp [amountCondRaw] at h1
      | num q => simp [amountCondRaw] at h1
      | str s => simp [amountCondRaw] at h1
      | arr items => simp [amountCondRaw] at h1

/-- Under `noRaiseDate`, `_check_date_condition` evaluates to the boolean
date predicate. -/
theorem checkDate_eq (date : PyDateTime) (c : Option Json) (h : noRaiseDate c = true) :
    checkDateCondition date c = Except.ok (dateHit date c) := by
  unfold dateHit
  cases c with
  | none => rfl
  | some j =>
    by_cases hf : pyFalsy j
    · simp [checkDateCondition, hf]
    · simp only [Bool.not_eq_true] at hf
      have h1 : (pyFalsy j || dateCondRaw j) = true := h
      rw [hf, Bool.false_or] at h1
      cases j with
      | obj fields =>
        have h2 : (match jsonGet fields (txt "value") (Json.str []) with
          | Json.str _ => true
          | _ => false) = true := h1
        cases hv : jsonGet fields (txt "value") (Json.str []) with
        | str s =>
          cases hs : strpDate s with
          | none => simp [checkDateCondition, hf, hv, hs]
          | some target => simp [checkDateCondition, hf, hv, hs]
        | null => rw [hv] at h2; simp at h2
        | bool b => rw [hv] at h2; simp at h2
        | num q => rw [hv] at h2; simp at h2
        | arr items => rw [hv] at h2; simp at h2
        | obj f2 => rw [hv] at h2; simp at h2
      | null => simp [dateCondRaw] at h1
      | bool b => simp [dateCondRaw] at h1
      | num q => simp [dateCondRaw] at h1
      | str s => simp [dateCondRaw] at h1
      | arr items => simp [dateCondRaw] at h1

/-- One step of `apply_rules` on a rule that cannot raise: the head rule's
category is returned exactly when the conjunction of its predicates holds,
otherwise evaluation continues with the remaining rules. -/
theorem applyRules_cons (r : TransactionRule) (rs : List TransactionRule)
    (desc : Str) (amount : Rat) (date : PyDateTime) (h : wfRule r = true) :
    applyRules (r :: rs) desc amount date =
      if ruleHit r desc amount date then Except.ok (some r.category)
      else applyRules rs desc amount date := by
  have h' := h
  unfold wfRule at h'
  rw [Bool.and_eq_true, Bool.and_eq_true] at h'
  obtain ⟨⟨h1, h2⟩, h3⟩ := h'
  show (match (if r.is_regex then reSearch r.pattern desc
              else Except.ok (substrCI r.pattern desc)) with
    | Except.error e => Except.error e
    | Except.ok textOk =>
      if !textOk then applyRules rs desc amount date
      else
        match checkAmountCondition amount r.amount_condition with
        | Except.error e => Except.error e
        | Except.ok amtOk =>
          if !amtOk then applyRules rs desc amount date
          else
            match checkDateCondition date r.date_condition with
            | Except.error e => Except.error e
            | Except.ok dOk =>
              if !dOk then applyRules rs desc amount date
              else Except.ok (some r.category)) = _
  rw [textStep_eq r desc h1, checkAmount_eq amount _ h2, checkDate_eq date _ h3]
  unfold ruleHit
  by_cases ht : textHit r desc
  · by_cases ha : amountHit amount r.amount_condition
    · by_cases hd : dateHit date r.date_condition
      · simp [ht, ha, hd]
      · simp [ht, ha, hd]
    · simp [ht, ha]
  · simp [ht]

/-- `apply_rules` over rules that cannot raise returns exactly the category
of the first fully-matching rule (or `None`). -/
theorem applyRules_eq_firstMatch (rules : List TransactionRule) (desc : Str)
    (amount : Rat) (date : PyDateTime) (h : ∀ r ∈ rules, wfRule r = true) :
    applyRules rules desc amount date
      = Except.ok (firstMatchCat rules desc amount date) := by
  induction rules with
  | nil => rfl
  | cons r rs ih =>
    rw [applyRules_cons r rs desc amount date (h r (List.mem_cons_self r rs))]
    by_cases hr : ruleHit r desc amount date
    · simp [firstMatchCat, List.find?_cons_of_pos _ hr, hr]
    · rw [ih (fun x hx => h x (List.mem_cons_of_mem r hx))]
      simp [firstMatchCat, List.find?_cons_of_neg, hr]

/-! ## Sorting lemmas -/

/-- Membership in a stable insertion. -/
theorem mem_insertRule {r x : TransactionRule} {l : List TransactionRule} :
    x ∈ insertRule r l ↔ x = r ∨ x ∈ l := by
  induction l with
  | nil => simp [insertRule]
  | cons y ys ih =>
    unfold insertRule
    by_cases hc : r.priority ≥ y.priority
    · simp [hc, List.mem_cons]
    · simp [hc, List.mem_cons, ih]
      tauto

/-- Stable insertion preserves descending order by priority. -/
theorem insertRule_pairwise {r : TransactionRule} {l : List TransactionRule}
    (h : l.Pairwise (fun a b => b.priority ≤ a.priority)) :
    (insertRule r l).Pairwise (fun a b => b.priority ≤ a.priority) := by
  induction l with
  | nil => simp [insertRule]
  | cons y ys ih =>
    unfold insertRule
    rw [List.pairwise_cons] at h
    obtain ⟨hy, hys⟩ := h
    by_cases hc : r.priority ≥ y.priority
    · simp only [hc, if_pos]
      refine List.Pairwise.cons ?_ (List.Pairwise.cons hy hys)
      intro b hb
      rcases List.mem_cons.mp hb with hb | hb
      · rw [hb]; exact hc
      · exact le_trans (hy b hb) hc
    · simp only [hc, if_neg, not_false_iff]
      refine List.Pairwise.cons ?_ (ih hys)
      intro b hb
      rcases mem_insertRule.mp hb with hb | hb
      · rw [hb]; exact le_of_lt (lt_of_not_ge hc)
      · exact hy b hb
  
/-- The Python sort produces a list in descending priority order. -/
theorem pySortRules_sorted (l : List TransactionRule) :
    (pySortRules l).Pairwise (fun a b => b.priority ≤ a.priority) := by
  induction l with
  | nil => exact List.Pairwise.nil
  | cons r rs ih => exact insertRule_pairwise ih

/-- Stable insertion seen through a fixed-priority filter: the inserted rule
lands in front of exactly the equal-priority block. -/
theorem filter_insertRule (r : TransactionRule) (l : List TransactionRule) (p : Rat) :
    (insertRule r l).filter (fun x => decide (x.priority = p)) =
      if r.priority = p then r :: l.filter (fun x => decide (x.priority = p))
      else l.filter (fun x => decide (x.priority = p)) := by
  induction l with
  | nil => by_cases hp : r.priority = p <;> simp [insertRule, hp]
  | cons x xs ih =>
    unfold insertRule
    by_cases hc : r.priority ≥ x.priority
    · rw [if_pos hc]
      by_cases hp : r.priority = p <;> by_cases hxp : x.priority = p <;>
        simp [List.filter_cons, hp, hxp]
    · rw [if_neg hc, List.filter_cons]
      by_cases hxp : x.priority = p
      · have hp : ¬ r.priority = p := fun hp => hc (ge_of_eq (hp.trans hxp.symm))
        simp [hxp, ih, hp, List.filter_cons]
      · simp [hxp, ih, List.filter_cons]

/-- The Python sort is stable: it permutes nothing within a priority class. -/
theorem filter_pySortRules (l : List TransactionRule) (p : Rat) :
    (pySortRules l).filter (fun x => decide (x.priority = p)) =
      l.filter (fun x => decide (x.priority = p)) := by
  induction l with
  | nil => rfl
  | cons r rs ih =>
    show (insertRule r (pySortRules rs)).filter _ = _
    rw [filter_insertRule, ih]
    by_cases hp : r.priority = p <;> simp [List.filter_cons, hp]

/-- Two lists sorted in descending priority order that agree on every
priority class are equal (uniqueness of the stable sort). -/
theorem sorted_filter_ext (l1 : List TransactionRule) :
    ∀ l2 : List TransactionRule,
    l1.Pairwise (fun a b => b.priority ≤ a.priority) →
    l2.Pairwise (fun a b => b.priority ≤ a.priority) →
    (∀ p, l1.filter (fun x => decide (x.priority = p)) =
          l2.filter (fun x => decide (x.priority = p))) → l1 = l2 := by
  induction l1 with
  | nil =>
    intro l2 _ _ h
    cases l2 with
    | nil => rfl
    | cons b t2 =>
      have hb := h b.priority
      simp [List.filter_cons] at hb
  | cons a t1 ih =>
    intro l2 h1 h2 h
    cases l2 with
    | nil =>
      have ha := h a.priority
      simp [List.filter_cons] at ha
    | cons b t2 =>
      rw [List.pairwise_cons] at h1 h2
      obtain ⟨ha1, ht1⟩ := h1
      obtain ⟨hb2, ht2⟩ := h2
      have hab : a.priority = b.priority := by
        by_contra hne
        have hA := h a.priority
        have hB := h b.priority
        rw [List.filter_cons, List.filter_cons] at hA
        rw [List.filter_cons, List.filter_cons] at hB
        simp only [decide_eq_true_eq] at hA hB
        rw [if_pos trivial, if_neg (fun hh => hne (hh.symm))] at hA
        rw [if_pos trivial, if_neg (fun hh => hne hh)] at hB
        have hat2 : a ∈ t2 := by
          have : a ∈ List.filter (fun x => decide (x.priority = a.priority)) t2 := by
            rw [← hA]; exact List.mem_cons_self _ _
          exact (List.mem_filter.mp this).1
        have hbt1 : b ∈ t1 := by
          have : b ∈ List.filter (fun x => decide (x.priority = b.priority)) t1 := by
            rw [hB]; exact List.mem_cons_self _ _
          exact (List.mem_filter.mp this).1
        exact hne (le_antisymm (hb2 a hat2) (ha1 b hbt1))
      have hA := h a.priority
      rw [List.filter_cons, List.filter_cons] at hA
      simp only [decide_eq_true_eq] at hA
      rw [if_pos trivial, if_pos hab.symm] at hA
      have hhead : a = b := (List.cons.injEq _ _ _ _ ▸ hA).1
      have htail : List.filter (fun x => decide (x.priority = a.priority)) t1 =
          List.filter (fun x => decide (x.priority = a.priority)) t2 :=
        (List.cons.injEq _ _ _ _ ▸ hA).2
      have h' : ∀ p, t1.filter (fun x => decide (x.priority = p)) =
          t2.filter (fun x => decide (x.priority = p)) := by
        intro p
        by_cases hp : p = a.priority
        · rw [hp]; exact htail
        · have hthis := h p
          rw [List.filter_cons, List.filter_cons] at hthis
          simp only [decide_eq_true_eq] at hthis
          rw [if_neg (fun hh => hp hh.symm),
              if_neg (fun hh => hp ((hab.trans hh).symm))] at hthis
          exact hthis
      rw [hhead, ih t2 ht1 ht2 h']

/-- Re-sorting an already sorted-and-extended list gives the same result as
sorting the underlying sequence: the `add_rule` step on a sorted state. -/
theorem pySortRules_sorted_append (base : List TransactionRule) (r : TransactionRule) :
    pySortRules (pySortRules base ++ [r]) = pySortRules (base ++ [r]) := by
  apply sorted_filter_ext _ _ (pySortRules_sorted _) (pySortRules_sorted _)
  intro p
  rw [filter_pySortRules, filter_pySortRules, List.filter_append,
      List.filter_append, filter_pySortRules]

/-- Building the engine with successive `add_rule` calls starting from a
sorted state is the same as sorting the full insertion sequence. -/
theorem foldl_addRule (base ext : List TransactionRule) :
    List.foldl addRule (pySortRules base) ext = pySortRules (base ++ ext) := by
  induction ext generalizing base with
  | nil => rw [List.foldl_nil, List.append_nil]
  | cons e es ih =>
    rw [List.foldl_cons]
    show List.foldl addRule (pySortRules (pySortRules base ++ [e])) es = _
    rw [pySortRules_sorted_append, ih (base ++ [e]), List.append_assoc,
        List.singleton_append]

/-- Sorting does not change the set of rules. -/
theorem mem_pySortRules {x : TransactionRule} {l : List TransactionRule} :
    x ∈ pySortRules l ↔ x ∈ l := by
  induction l with
  | nil => simp [pySortRules]
  | cons r rs ih =>
    show x ∈ insertRule r (pySortRules rs) ↔ _
    rw [mem_insertRule]
    simp [List.mem_cons, ih]

/-- Sorting a strictly-prioritized pair, in either insertion order, puts the
higher-priority rule first. -/
theorem pySortRules_pair {a b : TransactionRule} (h : b.priority < a.priority) :
    pySortRules [a, b] = [a, b] ∧ pySortRules [b, a] = [a, b] := by
  constructor
  · show insertRule a (insertRule b []) = [a, b]
    simp [insertRule, le_of_lt h]
  · show insertRule b (insertRule a []) = [a, b]
    simp [insertRule, not_le.mpr h]

/-- An unrecognized amount operator makes `_check_amount_condition` yield
`False` (when it yields at all), so the boolean amount predicate is false. -/
theorem amountHit_unrecognized (amount : Rat) (fields : List (Str × Json)) (o : Str)
    (hop : jsonGet fields (txt "operator") (Json.str (txt "==")) = Json.str o)
    (hno : o ∉ [txt "==", txt ">", txt ">=", txt "<", txt "<=", txt "!="]) :
    amountHit amount (some (Json.obj fields)) = false := by
  by_cases hf : pyFalsy (Json.obj fields)
  · exfalso
    have hfe : fields = [] := by
      simpa [pyFalsy, List.isEmpty_iff] using hf
    rw [hfe] at hop
    have ho : txt "==" = o := Json.str.inj (by simpa [jsonGet] using hop)
    exact hno (by rw [← ho]; simp)
  · unfold amountHit checkAmountCondition
    simp only [hf, Bool.false_eq_true, if_neg, ite_false]
    cases hv : pyFloat (jsonGet fields (txt "value") (Json.num 0)) with
    | error e => simp [hv]
    | ok v =>
      simp only [hv, hop]
      rw [if_neg (fun hh => hno (by rw [hh]; simp)),
          if_neg (fun hh => hno (by rw [hh]; simp)),
          if_neg (fun hh => hno (by rw [hh]; simp)),
          if_neg (fun hh => hno (by rw [hh]; simp)),
          if_neg (fun hh => hno (by rw [hh]; simp)),
          if_neg (fun hh => hno (by rw [hh]; simp))]

/-- An unparseable date-condition value makes the boolean date predicate
false (the caught `ValueError` branch). -/
theorem dateHit_badValue (date : PyDateTime) (fields : List (Str × Json)) (s : Str)
    (hf : pyFalsy (Json.obj fields) = false)
    (hv : jsonGet fields (txt "value") (Json.str []) = Json.str s)
    (hs : strpDate s = none) :
    dateHit date (some (Json.obj fields)) = false := by
  unfold dateHit checkDateCondition
  simp [hf, hv, hs]

/-- An unsupported date operator (including `!=`) makes the boolean date
predicate false. -/
theorem dateHit_unrecognized (date : PyDateTime) (fields : List (Str × Json)) (o : Str)
    (hop : jsonGet fields (txt "operator") (Json.str (txt "==")) = Json.str o)
    (hno : o ∉ [txt "==", txt ">", txt ">=", txt "<", txt "<="]) :
    dateHit date (some (Json.obj fields)) = false := by
  by_cases hf : pyFalsy (Json.obj fields)
  · exfalso
    have hfe : fields = [] := by
      simpa [pyFalsy, List.isEmpty_iff] using hf
    rw [hfe] at hop
    have ho : txt "==" = o := Json.str.inj (by simpa [jsonGet] using hop)
    exact hno (by rw [← ho]; simp)
  · unfold dateHit checkDateCondition
    simp only [hf, Bool.false_eq_true, if_neg, ite_false]
    cases hv : jsonGet fields (txt "value") (Json.str []) with
    | str s =>
      cases hs : strpDate s with
      | none => simp [hv, hs]
      | some target =>
        simp only [hv, hs, hop]
        rw [if_neg (fun hh => hno (by rw [hh]; simp)),
            if_neg (fun hh => hno (by rw [hh]; simp)),
            if_neg (fun hh => hno (by rw [hh]; simp)),
            if_neg (fun hh => hno (by rw [hh]; simp)),
            if_neg (fun hh => hno (by rw [hh]; simp))]
    | null => simp [hv]
    | bool b => simp [hv]
    | num q => simp [hv]
    | arr items => simp [hv]
    | obj f2 => simp [hv]

/-- The date predicate reads only the calendar-date fields of the
transaction's datetime. -/
theorem dateHit_time_ignored (y : Int) (mo dy hh1 mi1 hh2 mi2 : Nat)
    (cond : Option Json) :
    dateHit ⟨y, mo, dy, hh1, mi1⟩ cond = dateHit ⟨y, mo, dy, hh2, mi2⟩ cond := rfl

/-! ## Claim theorems -/

/-- C2: for every rule set built by `load_rules`/`add_rule`, the engine's
rule list is sorted by strictly descending evaluation priority with ties kept
in insertion order (stable sort), `add_rule` folding agrees with sorting the
full insertion sequence, `apply_rules` returns the category of the first
fully-matching rule and `none` when no rule matches, and of two rules with
the same text pattern, different priorities and no conflicting predicates the
higher-priority rule's category is returned from either insertion order. -/
theorem C2_priority_order (rs base ext : List TransactionRule) (p : Rat)
    (desc : Str) (amount : Rat) (date : PyDateTime) (a b : TransactionRule)
    (hwf : ∀ r ∈ rs, wfRule r = true)
    (hwa : wfRule a = true) (hwb : wfRule b = true)
    (hpat : a.pattern = b.pattern) (hpri : b.priority < a.priority)
    (hma : ruleHit a desc amount date = true)
    (hmb : ruleHit b desc amount date = true) :
    (pySortRules rs).Pairwise (fun x y => y.priority ≤ x.priority) ∧
    (pySortRules rs).filter (fun x => decide (x.priority = p)) =
      rs.filter (fun x => decide (x.priority = p)) ∧
    List.foldl addRule (pySortRules base) ext = pySortRules (base ++ ext) ∧
    applyRules (pySortRules rs) desc amount date
      = Except.ok (firstMatchCat (pySortRules rs) desc amount date) ∧
    ((∀ r ∈ rs, ruleHit r desc amount date = false) →
      applyRules (pySortRules rs) desc amount date = Except.ok none) ∧
    applyRules (pySortRules [a, b]) desc amount date = Except.ok (some a.category) ∧
    applyRules (pySortRules [b, a]) desc amount date = Except.ok (some a.category) := by
  obtain ⟨hp1, hp2⟩ := pySortRules_pair hpri
  have hwf' : ∀ r ∈ pySortRules rs, wfRule r = true :=
    fun r hr => hwf r (mem_pySortRules.mp hr)
  have hpair : applyRules [a, b] desc amount date = Except.ok (some a.category) := by
    rw [applyRules_cons a [b] desc amount date hwa, if_pos hma]
  refine ⟨pySortRules_sorted rs, filter_pySortRules rs p, foldl_addRule base ext,
    applyRules_eq_firstMatch _ _ _ _ hwf', ?_, ?_, ?_⟩
  · intro hnone
    rw [applyRules_eq_firstMatch _ _ _ _ hwf']
    unfold firstMatchCat
    rw [List.find?_eq_none.mpr
      (fun x hx => by simp [hnone x (mem_pySortRules.mp hx)])]
    rfl
  · rw [hp1]; exact hpair
  · rw [hp2]; exact hpair

/-- C2 witness: the test-suite scenario — the "Special Groceries" rule
(priority 2, `amount >= 100`) and the "Groceries" rule (priority 1) share the
pattern `COLES|WOOLWORTHS`; on a 150.00 transaction both match and the
higher-priority category wins from either insertion order. -/
theorem C2_priority_order_witness :
    ((∀ r ∈ [ruleGroceries, ruleHighValue, ruleDateSpecific], wfRule r = true) ∧
     wfRule ruleHighValue = true ∧ wfRule ruleGroceries = true ∧
     ruleHighValue.pattern = ruleGroceries.pattern ∧
     ruleGroceries.priority < ruleHighValue.priority ∧
     ruleHit ruleHighValue (txt "COLES SUPERMARKET") 150 someDay = true ∧
     ruleHit ruleGroceries (txt "COLES SUPERMARKET") 150 someDay = true) ∧
    ((pySortRules [ruleGroceries, ruleHighValue, ruleDateSpecific]).Pairwise
        (fun x y => y.priority ≤ x.priority) ∧
     (pySortRules [ruleGroceries, ruleHighValue, ruleDateSpecific]).filter
        (fun x => decide (x.priority = 1)) =
       [ruleGroceries, ruleHighValue, ruleDateSpecific].filter
        (fun x => decide (x.priority = 1)) ∧
     List.foldl addRule (pySortRules [ruleGroceries]) [ruleHighValue] =
       pySortRules ([ruleGroceries] ++ [ruleHighValue]) ∧
     applyRules (pySortRules [ruleGroceries, ruleHighValue, ruleDateSpecific])
        (txt "COLES SUPERMARKET") 150 someDay
       = Except.ok (firstMatchCat
          (pySortRules [ruleGroceries, ruleHighValue, ruleDateSpecific])
          (txt "COLES SUPERMARKET") 150 someDay) ∧
     ((∀ r ∈ [ruleGroceries, ruleHighValue, ruleDateSpecific],
        ruleHit r (txt "COLES SUPERMARKET") 150 someDay = false) →
       applyRules (pySortRules [ruleGroceries, ruleHighValue, ruleDateSpecific])
        (txt "COLES SUPERMARKET") 150 someDay = Except.ok none) ∧
     applyRules (pySortRules [ruleHighValue, ruleGroceries])
        (txt "COLES SUPERMARKET") 150 someDay
       = Except.ok (some ruleHighValue.category) ∧
     applyRules (pySortRules [ruleGroceries, ruleHighValue])
        (txt "COLES SUPERMARKET") 150 someDay
       = Except.ok (some ruleHighValue.category)) :=
  ⟨⟨by decide, by decide, by decide, by decide, by decide, by decide, by decide⟩,
   C2_priority_order [ruleGroceries, ruleHighValue, ruleDateSpecific]
     [ruleGroceries] [ruleHighValue] 1 (txt "COLES SUPERMARKET") 150 someDay
     ruleHighValue ruleGroceries (by decide) (by decide) (by decide)
     (by decide) (by decide) (by decide) (by decide)⟩

/-- C3: a rule matches in `apply_rules` exactly when the conjunction of its
present predicates holds — regex-anywhere or case-insensitive-substring text
predicate, amount predicate (vacuously true when absent, false on an
unrecognized operator), date predicate (vacuously true when absent, false on
an unparseable `YYYY-MM-DD` value, false on any operator outside
`==`/`>`/`>=`/`<`/`<=` including `!=`, and insensitive to time-of-day). -/
theorem C3_predicate_conjunction (r : TransactionRule) (rs : List TransactionRule)
    (desc : Str) (amount : Rat) (date : PyDateTime)
    (y : Int) (mo dy hh1 mi1 hh2 mi2 : Nat) (cond : Option Json)
    (fieldsA : List (Str × Json)) (oA : Str)
    (fieldsD : List (Str × Json)) (sD : Str)
    (fieldsO : List (Str × Json)) (oD : Str)
    (hwf : wfRule r = true)
    (hopA : jsonGet fieldsA (txt "operator") (Json.str (txt "==")) = Json.str oA)
    (hnoA : oA ∉ [txt "==", txt ">", txt ">=", txt "<", txt "<=", txt "!="])
    (hfD : pyFalsy (Json.obj fieldsD) = false)
    (hvD : jsonGet fieldsD (txt "value") (Json.str []) = Json.str sD)
    (hsD : strpDate sD = none)
    (hopO : jsonGet fieldsO (txt "operator") (Json.str (txt "==")) = Json.str oD)
    (hnoO : oD ∉ [txt "==", txt ">", txt ">=", txt "<", txt "<="]) :
    (applyRules (r :: rs) desc amount date =
      if textHit r desc && amountHit amount r.amount_condition
          && dateHit date r.date_condition then Except.ok (some r.category)
      else applyRules rs desc amount date) ∧
    (r.is_regex = true → reSearch r.pattern desc = Except.ok (textHit r desc)) ∧
    (r.is_regex = false → textHit r desc = substrCI r.pattern desc) ∧
    amountHit amount none = true ∧
    dateHit date none = true ∧
    amountHit amount (some (Json.obj fieldsA)) = false ∧
    dateHit date (some (Json.obj fieldsD)) = false ∧
    dateHit date (some (Json.obj fieldsO)) = false ∧
    dateHit ⟨y, mo, dy, hh1, mi1⟩ cond = dateHit ⟨y, mo, dy, hh2, mi2⟩ cond := by
  refine ⟨applyRules_cons r rs desc amount date hwf, ?_, ?_, rfl, rfl,
    amountHit_unrecognized amount fieldsA oA hopA hnoA,
    dateHit_badValue date fieldsD sD hfD hvD hsD,
    dateHit_unrecognized date fieldsO oD hopO hnoO,
    dateHit_time_ignored y mo dy hh1 mi1 hh2 mi2 cond⟩
  · intro hreg
    have := textStep_eq r desc (by
      have h' := hwf
      unfold wfRule at h'
      rw [Bool.and_eq_true, Bool.and_eq_true] at h'
      exact h'.1.1)
    rwa [hreg, if_pos rfl] at this
  · intro hreg
    simp [textHit, hreg]

/-- C3 witness: the "Date Specific" rule from the tests, together with a
concrete unrecognized amount operator `~`, the unparseable date value
`not-a-date`, the rejected `!=` date operator, and two timestamps on
2024-01-01 differing in time of day. -/
theorem C3_predicate_conjunction_witness :
    (wfRule ruleDateSpecific = true ∧
     jsonGet [(txt "operator", Json.str (txt "~")), (txt "value", Json.num 5)]
       (txt "operator") (Json.str (txt "==")) = Json.str (txt "~") ∧
     strpDate (txt "not-a-date") = none) ∧
    ((applyRules [ruleDateSpecific] (txt "TEST TRANSACTION") 50 ⟨2024, 1, 1, 0, 0⟩ =
      if textHit ruleDateSpecific (txt "TEST TRANSACTION")
          && amountHit 50 ruleDateSpecific.amount_condition
          && dateHit ⟨2024, 1, 1, 0, 0⟩ ruleDateSpecific.date_condition then
        Except.ok (some ruleDateSpecific.category)
      else applyRules [] (txt "TEST TRANSACTION") 50 ⟨2024, 1, 1, 0, 0⟩) ∧
     (ruleDateSpecific.is_regex = true →
       reSearch ruleDateSpecific.pattern (txt "TEST TRANSACTION")
         = Except.ok (textHit ruleDateSpecific (txt "TEST TRANSACTION"))) ∧
     (ruleDateSpecific.is_regex = false →
       textHit ruleDateSpecific (txt "TEST TRANSACTION")
         = substrCI ruleDateSpecific.pattern (txt "TEST TRANSACTION")) ∧
     amountHit 50 none = true ∧
     dateHit ⟨2024, 1, 1, 0, 0⟩ none = true ∧
     amountHit 50 (some (Json.obj
       [(txt "operator", Json.str (txt "~")), (txt "value", Json.num 5)])) = false ∧
     dateHit ⟨2024, 1, 1, 0, 0⟩ (some (Json.obj
       [(txt "value", Json.str (txt "not-a-date"))])) = false ∧
     dateHit ⟨2024, 1, 1, 0, 0⟩ (some (Json.obj
       [(txt "operator", Json.str (txt "!=")),
        (txt "value", Json.str (txt "2024-01-01"))])) = false ∧
     dateHit ⟨2024, 1, 1, 0, 0⟩ ruleDateSpecific.date_condition
       = dateHit ⟨2024, 1, 1, 23, 59⟩ ruleDateSpecific.date_condition) :=
  ⟨⟨by decide, rfl, by decide⟩,
   C3_predicate_conjunction ruleDateSpecific [] (txt "TEST TRANSACTION") 50
     ⟨2024, 1, 1, 0, 0⟩ 2024 1 1 0 0 23 59 ruleDateSpecific.date_condition
     [(txt "operator", Json.str (txt "~")), (txt "value", Json.num 5)] (txt "~")
     [(txt "value", Json.str (txt "not-a-date"))] (txt "not-a-date")
     [(txt "operator", Json.str (txt "!=")),
      (txt "value", Json.str (txt "2024-01-01"))] (txt "!=")
     (by decide) rfl (by decide) (by decide) rfl (by decide)
     rfl (by decide)⟩

/-- Every encoded merchant-pattern item passes the schema. -/
theorem validPatternItem_encode (pq : Str × Str) :
    validPatternItem (encodePatternItem pq) = true := rfl

/-- Every encoded merchant-pattern list passes the schema. -/
theorem all_validPatternItem (pats : List (Str × Str)) :
    (pats.map encodePatternItem).all validPatternItem = true := by
  induction pats with
  | nil => rfl
  | cons pq rest ih => simp [List.all_cons, ih, validPatternItem_encode]

/-- Encoded keyword lists are arrays of strings. -/
theorem all_str_encode (ks : List Str) :
    (ks.map Json.str).all isStrJson = true := by
  induction ks with
  | nil => rfl
  | cons k rest ih => simp [List.all_cons, ih, isStrJson]

/-- Every encoded categories section passes the schema. -/
theorem validCategoriesSection_encode (cats : List (Str × List Str)) :
    validCategoriesSection (encodeCategories cats) = true := by
  induction cats with
  | nil => rfl
  | cons ck rest ih =>
    show ((ck.1, Json.arr (ck.2.map Json.str)) ::
      rest.map (fun ck => (ck.1, Json.arr (ck.2.map Json.str)))).all
        validCategoryEntry = true
    rw [List.all_cons]
    have h1 : validCategoryEntry (ck.1, Json.arr (ck.2.map Json.str))
        = (ck.2.map Json.str).all isStrJson := rfl
    rw [h1, all_str_encode ck.2, Bool.true_and]
    exact ih

/-- Every encoded config passes `CONFIG_SCHEMA` validation. -/
theorem validateConfig_encode (pats : List (Str × Str)) (cats : List (Str × List Str)) :
    validateConfig (encodeConfig pats cats) = true := by
  have h0 : validateConfig (encodeConfig pats cats)
      = ((pats.map encodePatternItem).all validPatternItem &&
         validCategoriesSection (encodeCategories cats)) := rfl
  rw [h0, all_validPatternItem, validCategoriesSection_encode]
  rfl

/-- Extraction is a left inverse of pattern-item encoding. -/
theorem extractPatternItem_encode (pq : Str × Str) :
    extractPatternItem (encodePatternItem pq) = pq := rfl

/-- Extraction is a left inverse of pattern encoding. -/
theorem extractPatterns_encode (pats : List (Str × Str)) :
    extractPatterns (Json.arr (pats.map encodePatternItem)) = pats := by
  induction pats with
  | nil => rfl
  | cons pq rest ih =>
    show extractPatternItem (encodePatternItem pq) ::
      extractPatterns (Json.arr (rest.map encodePatternItem)) = pq :: rest
    exact congrArg₂ List.cons (extractPatternItem_encode pq) ih

/-- Decoding an encoded string array recovers the keyword list. -/
theorem map_extract_str (ks : List Str) :
    (ks.map Json.str).map extractKeyword = ks := by
  induction ks with
  | nil => rfl
  | cons k rest ih => simp [ih, extractKeyword]

/-- Extraction is a left inverse of one category-entry encoding. -/
theorem extractCategoryEntry_encode (ck : Str × List Str) :
    extractCategoryEntry (ck.1, Json.arr (ck.2.map Json.str)) = ck := by
  unfold extractCategoryEntry
  exact congrArg₂ Prod.mk rfl (map_extract_str ck.2)

/-- Extraction is a left inverse of category encoding. -/
theorem extractCategories_encode (cats : List (Str × List Str)) :
    extractCategories (encodeCategories cats) = cats := by
  induction cats with
  | nil => rfl
  | cons ck rest ih =>
    show extractCategoryEntry (ck.1, Json.arr (ck.2.map Json.str)) ::
      extractCategories (encodeCategories rest) = ck :: rest
    exact congrArg₂ List.cons (extractCategoryEntry_encode ck) ih

/-- On a schema-valid decoded config, `load_custom_config` returns exactly
the extracted custom tables. -/
theorem loadCustomConfig_valid (j : Json) (h : validateConfig j = true) :
    loadCustomConfig (ConfigFile.parsed j) =
      ⟨extractPatterns (configGet j (txt "merchant_patterns") (Json.arr [])),
       extractCategories (configGet j (txt "categories") (Json.obj [])),
       ["Successfully loaded configuration file",
        "Configuration validation successful"]⟩ := by
  show (if validateConfig j = true then _ else _) = _
  rw [h]
  rfl

/-- C1 counterexample: a valid one-pattern, one-category custom config loads
as exactly its own content — the merchant list is not the defaults followed
by the custom list, and default category keys are not retained. -/
theorem C1_counterexample :
    validateConfig c1ConfigJson = true ∧
    (loadCustomConfig (ConfigFile.parsed c1ConfigJson)).merchant_patterns
      ≠ DEFAULT_MERCHANT_PATTERNS ++ [(txt "(?i)mycafe", txt "My Cafe")] ∧
    txt "Groceries" ∉
      (loadCustomConfig (ConfigFile.parsed c1ConfigJson)).categories.map Prod.fst := by
  exact ⟨rfl, by decide, by decide⟩

/-- C1 as amended: when the custom pattern/category config file is present
and schema-valid, the loaded merchant pattern list is exactly the custom
list (the built-in defaults are not placed before it) and the loaded
category mapping is exactly the custom mapping (default categories are
discarded, not shallow-merged). -/
theorem C1_custom_config_replaces_defaults (pats : List (Str × Str))
    (cats : List (Str × List Str)) :
    validateConfig (encodeConfig pats cats) = true ∧
    (loadCustomConfig (ConfigFile.parsed (encodeConfig pats cats))).merchant_patterns
      = pats ∧
    (loadCustomConfig (ConfigFile.parsed (encodeConfig pats cats))).categories
      = cats := by
  have hv := validateConfig_encode pats cats
  refine ⟨hv, ?_, ?_⟩
  · rw [loadCustomConfig_valid _ hv]
    show extractPatterns (Json.arr (pats.map encodePatternItem)) = pats
    exact extractPatterns_encode pats
  · rw [loadCustomConfig_valid _ hv]
    show extractCategories (encodeCategories cats) = cats
    exact extractCategories_encode cats

/-- C5: loading the rules file re-raises a missing file
(`FileNotFoundError`) and undecodable JSON as `ValueError`; a non-sequence
top level (here a number, and an object with a string key) also raises, while
an empty array loads as an empty rule set.  The missing-file branch
contradicts the repository's own test
`test_init_with_missing_transaction_rules_file`, which expects a warning and
an empty rule set. -/
theorem C5_rules_file_loading :
    loadRules RulesFile.missing
      = Except.error "ValueError: Failed to load rules: FileNotFoundError" ∧
    loadRules RulesFile.unparseable
      = Except.error "ValueError: Failed to load rules: JSONDecodeError" ∧
    (∃ e, loadRules (RulesFile.parsed (Json.num 3)) = Except.error e) ∧
    (∃ e, loadRules (RulesFile.parsed (Json.obj [(txt "a", Json.num 1)]))
      = Except.error e) ∧
    loadRules (RulesFile.parsed (Json.arr [])) = Except.ok [] :=
  ⟨rfl, rfl, ⟨_, rfl⟩, ⟨_, rfl⟩, rfl⟩

/-- C6: loading the pattern/category config never raises (the model's return
type is exception-free because every branch of the source catches): a missing
file yields the built-in defaults with the not-found report, an unreadable or
undecodable file yields the defaults with a warning, and a decoded file that
fails schema validation yields the defaults with the invalid-format warning. -/
theorem C6_pattern_config_soft_fallback (j : Json) (h : validateConfig j = false) :
    loadCustomConfig ConfigFile.missing =
      ⟨DEFAULT_MERCHANT_PATTERNS, DEFAULT_CATEGORIES,
       ["Configuration file not found, using defaults"]⟩ ∧
    loadCustomConfig ConfigFile.unreadable =
      ⟨DEFAULT_MERCHANT_PATTERNS, DEFAULT_CATEGORIES,
       ["Warning: Could not load custom configuration"]⟩ ∧
    loadCustomConfig (ConfigFile.parsed j) =
      ⟨DEFAULT_MERCHANT_PATTERNS, DEFAULT_CATEGORIES,
       ["Successfully loaded configuration file",
        "Warning: Invalid configuration format"]⟩ := by
  refine ⟨rfl, rfl, ?_⟩
  show (if validateConfig j = true then _ else _) = _
  rw [h]
  rfl

/-- C6 witness: a JSON `null` config file fails validation and falls back to
the defaults in every failure mode. -/
theorem C6_pattern_config_soft_fallback_witness :
    validateConfig Json.null = false ∧
    (loadCustomConfig ConfigFile.missing =
      ⟨DEFAULT_MERCHANT_PATTERNS, DEFAULT_CATEGORIES,
       ["Configuration file not found, using defaults"]⟩ ∧
    loadCustomConfig ConfigFile.unreadable =
      ⟨DEFAULT_MERCHANT_PATTERNS, DEFAULT_CATEGORIES,
       ["Warning: Could not load custom configuration"]⟩ ∧
    loadCustomConfig (ConfigFile.parsed Json.null) =
      ⟨DEFAULT_MERCHANT_PATTERNS, DEFAULT_CATEGORIES,
       ["Successfully loaded configuration file",
        "Warning: Invalid configuration format"]⟩) :=
  ⟨rfl, C6_pattern_config_soft_fallback Json.null rfl⟩

/-- A rule whose date condition has an unparseable string value can never
satisfy its date predicate. -/
theorem dateHit_of_unparseable (date : PyDateTime) (r : TransactionRule)
    (h : dateCondUnparseable r = true) :
    dateHit date r.date_condition = false := by
  unfold dateCondUnparseable at h
  cases hc : r.date_condition with
  | none => rw [hc] at h; simp at h
  | some j =>
    rw [hc] at h
    cases j with
    | obj fields =>
      rw [Bool.and_eq_true] at h
      obtain ⟨hf, hv⟩ := h
      rw [Bool.not_eq_true'] at hf
      cases hval : jsonGet fields (txt "value") (Json.str []) with
      | str s =>
        have hs : (strpDate s).isNone = true := by
          have h2 : (match jsonGet fields (txt "value") (Json.str []) with
            | Json.str s => (strpDate s).isNone
            | _ => false) = true := hv
          rwa [hval] at h2
        rw [Option.isNone_iff_eq_none] at hs
        exact dateHit_badValue date fields s hf hval hs
      | null =>
        have h2 : (match jsonGet fields (txt "value") (Json.str []) with
          | Json.str s => (strpDate s).isNone
          | _ => false) = true := hv
        rw [hval] at h2; simp at h2
      | bool b =>
        have h2 : (match jsonGet fields (txt "value") (Json.str []) with
          | Json.str s => (strpDate s).isNone
          | _ => false) = true := hv
        rw [hval] at h2; simp at h2
      | num q =>
        have h2 : (match jsonGet fields (txt "value") (Json.str []) with
          | Json.str s => (strpDate s).isNone
          | _ => false) = true := hv
        rw [hval] at h2; simp at h2
      | arr items =>
        have h2 : (match jsonGet fields (txt "value") (Json.str []) with
          | Json.str s => (strpDate s).isNone
          | _ => false) = true := hv
        rw [hval] at h2; simp at h2
      | obj f2 =>
        have h2 : (match jsonGet fields (txt "value") (Json.str []) with
          | Json.str s => (strpDate s).isNone
          | _ => false) = true := hv
        rw [hval] at h2; simp at h2
    | null => simp at h
    | bool b => simp at h
    | num q => simp at h
    | str s => simp at h
    | arr items => simp at h

/-- The merchant-pattern scan cannot raise when every pattern compiles, and
finds exactly the first matching pattern's canonical name. -/
theorem findPattern_ok (patterns : List (Str × Str)) (d : Str)
    (h : ∀ pq ∈ patterns, (parseRegex pq.1).isOk = true) :
    findPattern patterns d = Except.ok (patFirst patterns d) := by
  induction patterns with
  | nil => rfl
  | cons pq rest ih =>
    obtain ⟨p, n⟩ := pq
    have hp := h (p, n) (List.mem_cons_self _ _)
    cases hr : parseRegex p with
    | error e => rw [hr] at hp; simp [Except.isOk, Except.toBool] at hp
    | ok re =>
      have hsearch : reSearch p d = Except.ok (re.searchIn d) := by
        simp [reSearch, hr, Except.map]
      have hhit : reHit p d = re.searchIn d := by simp [reHit, hsearch]
      show (match reSearch p d with
        | Except.error e => Except.error e
        | Except.ok hit =>
          if hit then Except.ok (some n) else findPattern rest d) = _
      rw [hsearch]
      unfold patFirst
      by_cases hb : re.searchIn d = true
      · rw [List.find?_cons_of_pos _ (by simpa [hhit] using hb)]
        simp [hb]
      · rw [List.find?_cons_of_neg _ (by simpa [hhit] using hb)]
        rw [Bool.not_eq_true] at hb
        rw [hb]
        simp only [Bool.false_eq_true, if_false, ite_false]
        exact ih (fun x hx => h x (List.mem_cons_of_mem _ hx))

/-- `normalize_merchant` cannot raise when every pattern compiles: it returns
the first matching canonical name, defaulting to the prefix-stripped
description. -/
theorem normalizeMerchant_ok (patterns : List (Str × Str)) (desc : Str)
    (h : ∀ pq ∈ patterns, (parseRegex pq.1).isOk = true) :
    normalizeMerchant patterns desc =
      Except.ok ((patFirst patterns (stripGatewayPrefixes desc)).getD
        (stripGatewayPrefixes desc)) := by
  show (match findPattern patterns (stripGatewayPrefixes desc) with
    | Except.error e => Except.error e
    | Except.ok (some normalized) => Except.ok normalized
    | Except.ok none => Except.ok (stripGatewayPrefixes desc)) = _
  rw [findPattern_ok patterns (stripGatewayPrefixes desc) h]
  cases patFirst patterns (stripGatewayPrefixes desc) with
  | none => rfl
  | some n => rfl

/-- One keyword loop of `categorize_transaction` cannot raise when the
escaped keywords compile, and computes the boolean any-match. -/
theorem anyKeyword_ok (d : Str) (ks : List Str)
    (h : ∀ k ∈ ks, (parseRegex (txt "(?i)" ++ reEscape k)).isOk = true) :
    anyKeyword d ks = Except.ok (ks.any (kwHit d)) := by
  induction ks with
  | nil => rfl
  | cons k rest ih =>
    have hp := h k (List.mem_cons_self _ _)
    cases hr : parseRegex (txt "(?i)" ++ reEscape k) with
    | error e => rw [hr] at hp; simp [Except.isOk, Except.toBool] at hp
    | ok re =>
      have hsearch : keywordHit d k = Except.ok (re.searchIn d) := by
        simp [keywordHit, reSearch, hr, Except.map]
      have hhit : kwHit d k = re.searchIn d := by simp [kwHit, hsearch]
      show (match keywordHit d k with
        | Except.error e => Except.error e
        | Except.ok hit => if hit then Except.ok true else anyKeyword d rest) = _
      rw [hsearch, List.any_cons, hhit]
      by_cases hb : re.searchIn d = true
      · simp [hb]
      · rw [Bool.not_eq_true] at hb
        rw [hb]
        simp only [Bool.false_eq_true, if_false, ite_false, Bool.false_or]
        exact ih (fun x hx => h x (List.mem_cons_of_mem _ hx))

/-- The category loop of `categorize_transaction` cannot raise when every
escaped keyword compiles, and finds exactly the first matching category. -/
theorem findCategory_ok (d : Str) (cats : List (Str × List Str))
    (h : ∀ ck ∈ cats, ∀ k ∈ ck.2, (parseRegex (txt "(?i)" ++ reEscape k)).isOk = true) :
    findCategory d cats = Except.ok (catFirst cats d) := by
  induction cats with
  | nil => rfl
  | cons ck rest ih =>
    obtain ⟨cat, ks⟩ := ck
    have hk := h (cat, ks) (List.mem_cons_self _ _)
    show (match anyKeyword d ks with
      | Except.error e => Except.error e
      | Except.ok hit =>
        if hit then Except.ok (some cat) else findCategory d rest) = _
    rw [anyKeyword_ok d ks hk]
    unfold catFirst
    by_cases hb : ks.any (kwHit d) = true
    · rw [List.find?_cons_of_pos _ (by simpa using hb)]
      simp [hb]
    · rw [List.find?_cons_of_neg _ (by simpa using hb)]
      rw [Bool.not_eq_true] at hb
      rw [hb]
      simp only [Bool.false_eq_true, if_false, ite_false]
      exact ih (fun x hx => h x (List.mem_cons_of_mem _ hx))

/-- `categorize_transaction` cannot raise when the merchant patterns and the
escaped keywords compile: it returns the first matching category, defaulting
to `"Other"`. -/
theorem categorizeTransaction_ok (mpatterns : List (Str × Str))
    (cats : List (Str × List Str)) (desc : Str)
    (hm : ∀ pq ∈ mpatterns, (parseRegex pq.1).isOk = true)
    (hk : ∀ ck ∈ cats, ∀ k ∈ ck.2, (parseRegex (txt "(?i)" ++ reEscape k)).isOk = true) :
    categorizeTransaction mpatterns cats desc =
      Except.ok ((catFirst cats (stripGatewayPrefixes desc)).getD (txt "Other")) := by
  show (match normalizeMerchant mpatterns (stripGatewayPrefixes desc) with
    | Except.error e => Except.error e
    | Except.ok _ =>
      match findCategory (stripGatewayPrefixes desc) cats with
      | Except.error e => Except.error e
      | Except.ok (some c) => Except.ok c
      | Except.ok none => Except.ok (txt "Other")) = _
  rw [normalizeMerchant_ok mpatterns (stripGatewayPrefixes desc) hm]
  rw [findCategory_ok (stripGatewayPrefixes desc) cats hk]
  cases catFirst cats (stripGatewayPrefixes desc) with
  | none => rfl
  | some c => rfl

/-- C7 counterexample: a syntactically valid rules file whose rule carries
`amount_condition.value = "abc"` loads fine, but `apply_rules` then raises
the uncaught `float()` `ValueError` for every transaction whose description
matches — the failure is not localized to the rule. -/
theorem C7_counterexample :
    loadRules (RulesFile.parsed badAmountRulesJson) = Except.ok [badAmountRule] ∧
    applyRules [badAmountRule] (txt "X STORE") 50 someDay
      = Except.error "ValueError: could not convert string to float" :=
  ⟨rfl, rfl⟩

/-- C7 as amended: a date-parse failure in a rule's date condition is
localized — the rule is a non-match and evaluation continues with the
remaining rules; and no exception leaves `apply_rules`,
`normalize_merchant` or `categorize_transaction` for any transaction input
(any description, amount and date) provided the loaded rules' regex patterns
compile and their amount-condition values convert, and the pattern/keyword
tables compile.  (An unparseable amount-condition value or a malformed regex
in a loaded rule, by contrast, raises out of `apply_rules` — see the
counterexample.) -/
theorem C7_exception_localization (r : TransactionRule)
    (rules : List TransactionRule) (mpats : List (Str × Str))
    (cats : List (Str × List Str)) (desc : Str) (amount : Rat)
    (date : PyDateTime)
    (hwf : ∀ x ∈ rules, wfRule x = true)
    (hr : wfRule r = true)
    (hbad : dateCondUnparseable r = true)
    (hmp : ∀ pq ∈ mpats, (parseRegex pq.1).isOk = true)
    (hkw : ∀ ck ∈ cats, ∀ k ∈ ck.2,
      (parseRegex (txt "(?i)" ++ reEscape k)).isOk = true) :
    applyRules (r :: rules) desc amount date = applyRules rules desc amount date ∧
    (∃ v, applyRules rules desc amount date = Except.ok v) ∧
    (∃ s, normalizeMerchant mpats desc = Except.ok s) ∧
    (∃ s, categorizeTransaction mpats cats desc = Except.ok s) := by
  refine ⟨?_, ⟨_, applyRules_eq_firstMatch rules desc amount date hwf⟩,
    ⟨_, normalizeMerchant_ok mpats desc hmp⟩,
    ⟨_, categorizeTransaction_ok mpats cats desc hmp hkw⟩⟩
  rw [applyRules_cons r rules desc amount date hr]
  have hd : ruleHit r desc amount date = false := by
    unfold ruleHit
    rw [dateHit_of_unparseable date r hbad]
    simp
  rw [hd]
  simp

/-- C7 witness: a rule whose date condition value is `not-a-date` is skipped
(with an empty description and a zero amount), and the surrounding calls all
return normally on the default-style tables. -/
theorem C7_exception_localization_witness :
    ((∀ x ∈ [ruleGroceries], wfRule x = true) ∧
     wfRule ruleBadDate = true ∧
     dateCondUnparseable ruleBadDate = true) ∧
    (applyRules [ruleBadDate, ruleGroceries] [] 0 someDay
       = applyRules [ruleGroceries] [] 0 someDay ∧
     (∃ v, applyRules [ruleGroceries] [] 0 someDay = Except.ok v) ∧
     (∃ s, normalizeMerchant [(txt "(?i)coles", txt "Coles")] [] = Except.ok s) ∧
     (∃ s, categorizeTransaction [(txt "(?i)coles", txt "Coles")]
        [(txt "Groceries", [txt "coles"])] [] = Except.ok s)) :=
  ⟨⟨by decide, by decide, by decide⟩,
   C7_exception_localization ruleBadDate [ruleGroceries]
     [(txt "(?i)coles", txt "Coles")] [(txt "Groceries", [txt "coles"])]
     [] 0 someDay (by decide) (by decide) (by decide) (by decide) (by decide)⟩

/-- The inner fallback loop returns `false` when no pattern matches. -/
theorem anyRawPattern_false (d : Str) (ps : List Str)
    (h : ∀ p ∈ ps, reSearch p d = Except.ok false) :
    anyRawPattern d ps = Except.ok false := by
  induction ps with
  | nil => rfl
  | cons p rest ih =>
    show (match reSearch p d with
      | Except.error e => Except.error e
      | Except.ok hit => if hit then Except.ok true else anyRawPattern d rest) = _
    rw [h p (List.mem_cons_self _ _)]
    simp only [Bool.false_eq_true, if_false, ite_false]
    exact ih (fun x hx => h x (List.mem_cons_of_mem _ hx))

/-- The keyword fallback of `_categorize_transaction` returns `"Other"` when
no category's pattern matches. -/
theorem fallbackCategorize_other (cats : List (Str × List Str)) (d : Str)
    (h : ∀ ck ∈ cats, ∀ p ∈ ck.2, reSearch p d = Except.ok false) :
    fallbackCategorize cats d = Except.ok (txt "Other") := by
  induction cats with
  | nil => rfl
  | cons ck rest ih =>
    obtain ⟨cat, ps⟩ := ck
    show (match anyRawPattern d ps with
      | Except.error e => Except.error e
      | Except.ok hit => if hit then Except.ok cat else fallbackCategorize rest d) = _
    rw [anyRawPattern_false d ps (h (cat, ps) (List.mem_cons_self _ _))]
    simp only [Bool.false_eq_true, if_false, ite_false]
    exact ih (fun x hx => h x (List.mem_cons_of_mem _ hx))

/-- C4: `_categorize_transaction` returns the rules engine's category
immediately whenever the engine yields one (custom rules take precedence);
only an engine no-match falls through to the keyword fallback, which
defaults to `"Other"` when nothing matches. -/
theorem C4_resolver_precedence (cats cats2 : List (Str × List Str))
    (rulesA rulesB : List TransactionRule) (desc desc2 : Str)
    (amount : Rat) (date : PyDateTime) (c : Str)
    (hA : applyRules rulesA desc amount date = Except.ok (some c))
    (hc : c ≠ [])
    (hB : applyRules rulesB desc amount date = Except.ok none)
    (hno : ∀ ck ∈ cats2, ∀ p ∈ ck.2, reSearch p desc2 = Except.ok false) :
    categorizeWithRules cats rulesA desc amount date = Except.ok c ∧
    categorizeWithRules cats rulesB desc amount date
      = fallbackCategorize cats desc ∧
    fallbackCategorize cats2 desc2 = Except.ok (txt "Other") := by
  refine ⟨?_, ?_, fallbackCategorize_other cats2 desc2 hno⟩
  · unfold categorizeWithRules
    rw [hA]
    show (if (!c.isEmpty) = true then Except.ok c else fallbackCategorize cats desc)
      = Except.ok c
    have hce : c.isEmpty = false := by
      cases c with
      | nil => exact absurd rfl hc
      | cons x xs => rfl
    rw [hce]
    rfl
  · unfold categorizeWithRules
    rw [hB]

set_option maxRecDepth 20000 in
/-- C4 witness: the spec's precedence scenario (COLES at 150.00 with the
priority-2 `amount >= 100` rule ⇒ "Special Groceries") and fallback scenario
(no matching rule ⇒ the keyword fallback, which yields "Groceries" on the
default tables). -/
theorem C4_resolver_precedence_witness :
    (applyRules [ruleHighValue, ruleGroceries] (txt "COLES SUPERMARKET") 150 someDay
       = Except.ok (some (txt "Special Groceries")) ∧
     applyRules [ruleDateSpecific] (txt "COLES SUPERMARKET") 150 someDay
       = Except.ok none ∧
     fallbackCategorize DEFAULT_CATEGORIES (txt "COLES SUPERMARKET")
       = Except.ok (txt "Groceries")) ∧
    (categorizeWithRules DEFAULT_CATEGORIES [ruleHighValue, ruleGroceries]
       (txt "COLES SUPERMARKET") 150 someDay
       = Except.ok (txt "Special Groceries") ∧
     categorizeWithRules DEFAULT_CATEGORIES [ruleDateSpecific]
       (txt "COLES SUPERMARKET") 150 someDay
       = fallbackCategorize DEFAULT_CATEGORIES (txt "COLES SUPERMARKET") ∧
     fallbackCategorize [(txt "Transport", [txt "uber", txt "taxi"])]
       (txt "COLES SUPERMARKET") = Except.ok (txt "Other")) :=
  ⟨⟨by decide, by decide, by decide⟩,
   C4_resolver_precedence DEFAULT_CATEGORIES
     [(txt "Transport", [txt "uber", txt "taxi"])]
     [ruleHighValue, ruleGroceries] [ruleDateSpecific]
     (txt "COLES SUPERMARKET") (txt "COLES SUPERMARKET") 150 someDay
     (txt "Special Groceries") (by decide) (by decide) (by decide) (by decide)⟩

/-- C8: for every description, `categorize_transaction` returns exactly one
category — the first category in the mapping's declared order with a keyword
match, a member of the mapping's key set, defaulting to `"Other"`, and it
returns `"Other"` exactly when no category's keyword list matched (assuming
the reserved `"Other"` entry has an empty keyword list, as the defaults do,
and the tables compile). -/
theorem C8_keyword_categorizer (mpats : List (Str × Str))
    (cats : List (Str × List Str)) (desc : Str)
    (hm : ∀ pq ∈ mpats, (parseRegex pq.1).isOk = true)
    (hk : ∀ ck ∈ cats, ∀ k ∈ ck.2,
      (parseRegex (txt "(?i)" ++ reEscape k)).isOk = true)
    (hother : ∀ ck ∈ cats, ck.1 = txt "Other" → ck.2 = []) :
    ∃ res, categorizeTransaction mpats cats desc = Except.ok res ∧
      res = (catFirst cats (stripGatewayPrefixes desc)).getD (txt "Other") ∧
      (res ∈ cats.map Prod.fst ∨ res = txt "Other") ∧
      ((res = txt "Other") ↔
        ∀ ck ∈ cats, ∀ k ∈ ck.2, kwHit (stripGatewayPrefixes desc) k = false) := by
  refine ⟨(catFirst cats (stripGatewayPrefixes desc)).getD (txt "Other"),
    categorizeTransaction_ok mpats cats desc hm hk, rfl, ?_, ?_⟩
  · cases hfind : cats.find?
        (fun ck => ck.2.any (kwHit (stripGatewayPrefixes desc))) with
    | none =>
      right
      unfold catFirst
      rw [hfind]
      rfl
    | some ck =>
      left
      unfold catFirst
      rw [hfind]
      show ck.1 ∈ cats.map Prod.fst
      exact List.mem_map_of_mem _ (List.mem_of_find?_eq_some hfind)
  · cases hfind : cats.find?
        (fun ck => ck.2.any (kwHit (stripGatewayPrefixes desc))) with
    | none =>
      unfold catFirst
      rw [hfind]
      constructor
      · intro _ ck hck k hkk
        have hnp : ¬ (ck.2.any (kwHit (stripGatewayPrefixes desc)) = true) :=
          List.find?_eq_none.mp hfind ck hck
        rw [Bool.not_eq_true, List.any_eq_false] at hnp
        have := hnp k hkk
        simpa using this
      · intro _
        rfl
    | some ck =>
      unfold catFirst
      rw [hfind]
      show (ck.1 = txt "Other") ↔ _
      have hmem := List.mem_of_find?_eq_some hfind
      have hany0 := List.find?_some hfind
      have hany : ck.2.any (kwHit (stripGatewayPrefixes desc)) = true := hany0
      obtain ⟨k, hkmem, hkhit⟩ := List.any_eq_true.mp hany
      constructor
      · intro hcat
        exfalso
        have hempty : ck.2 = [] := hother ck hmem hcat
        rw [hempty] at hkmem
        exact List.not_mem_nil k hkmem
      · intro hall
        exfalso
        have hkf := hall ck hmem k hkmem
        rw [hkf] at hkhit
        exact Bool.false_ne_true hkhit

set_option maxRecDepth 20000 in
/-- C8 witness: the default tables (whose `"Other"` entry is empty) on the
description `SQ *COLES 123`, which the keyword categorizer files under
`Groceries`. -/
theorem C8_keyword_categorizer_witness :
    ((∀ pq ∈ DEFAULT_MERCHANT_PATTERNS, (parseRegex pq.1).isOk = true) ∧
     (∀ ck ∈ DEFAULT_CATEGORIES, ck.1 = txt "Other" → ck.2 = []) ∧
     categorizeTransaction DEFAULT_MERCHANT_PATTERNS DEFAULT_CATEGORIES
       (txt "SQ *COLES 123") = Except.ok (txt "Groceries")) ∧
    (∃ res, categorizeTransaction DEFAULT_MERCHANT_PATTERNS DEFAULT_CATEGORIES
        (txt "SQ *COLES 123") = Except.ok res ∧
      res = (catFirst DEFAULT_CATEGORIES
        (stripGatewayPrefixes (txt "SQ *COLES 123"))).getD (txt "Other") ∧
      (res ∈ DEFAULT_CATEGORIES.map Prod.fst ∨ res = txt "Other") ∧
      ((res = txt "Other") ↔
        ∀ ck ∈ DEFAULT_CATEGORIES, ∀ k ∈ ck.2,
          kwHit (stripGatewayPrefixes (txt "SQ *COLES 123")) k = false)) :=
  ⟨⟨by decide, by decide, by decide⟩,
   C8_keyword_categorizer DEFAULT_MERCHANT_PATTERNS DEFAULT_CATEGORIES
     (txt "SQ *COLES 123") (by decide) (by decide) (by decide)⟩

/-- C9: `normalize_merchant` first strips the gateway prefixes, then returns
the canonical name of the first merchant pattern found anywhere in the
stripped description; with no matching pattern it returns the prefix-stripped
input unchanged (identity fallback). -/
theorem C9_normalize_merchant (mpats : List (Str × Str)) (desc : Str)
    (hm : ∀ pq ∈ mpats, (parseRegex pq.1).isOk = true) :
    normalizeMerchant mpats desc =
      Except.ok ((patFirst mpats (stripGatewayPrefixes desc)).getD
        (stripGatewayPrefixes desc)) ∧
    ((∀ pq ∈ mpats, reHit pq.1 (stripGatewayPrefixes desc) = false) →
      normalizeMerchant mpats desc = Except.ok (stripGatewayPrefixes desc)) ∧
    (∀ n, patFirst mpats (stripGatewayPrefixes desc) = some n →
      normalizeMerchant mpats desc = Except.ok n) := by
  refine ⟨normalizeMerchant_ok mpats desc hm, ?_, ?_⟩
  · intro hnone
    rw [normalizeMerchant_ok mpats desc hm]
    have : patFirst mpats (stripGatewayPrefixes desc) = none := by
      unfold patFirst
      rw [List.find?_eq_none.mpr (fun pq hpq => by simp [hnone pq hpq])]
      rfl
    rw [this, Option.getD_none]
  · intro n hn
    rw [normalizeMerchant_ok mpats desc hm, hn, Option.getD_some]

set_option maxRecDepth 20000 in
/-- C9 witness: on the default table, `SQ *STORE & SHOP` matches no merchant
pattern and normalizes to the prefix-stripped `STORE & SHOP` (the test
suite's identity case), and the no-match hypothesis is checked exhaustively. -/
theorem C9_normalize_merchant_witness :
    ((∀ pq ∈ DEFAULT_MERCHANT_PATTERNS, (parseRegex pq.1).isOk = true) ∧
     (∀ pq ∈ DEFAULT_MERCHANT_PATTERNS,
       reHit pq.1 (stripGatewayPrefixes (txt "SQ *STORE & SHOP")) = false) ∧
     stripGatewayPrefixes (txt "SQ *STORE & SHOP") = txt "STORE & SHOP" ∧
     normalizeMerchant DEFAULT_MERCHANT_PATTERNS (txt "SQ *STORE & SHOP")
       = Except.ok (txt "STORE & SHOP")) ∧
    (normalizeMerchant DEFAULT_MERCHANT_PATTERNS (txt "SQ *STORE & SHOP") =
      Except.ok ((patFirst DEFAULT_MERCHANT_PATTERNS
        (stripGatewayPrefixes (txt "SQ *STORE & SHOP"))).getD
        (stripGatewayPrefixes (txt "SQ *STORE & SHOP"))) ∧
    ((∀ pq ∈ DEFAULT_MERCHANT_PATTERNS,
        reHit pq.1 (stripGatewayPrefixes (txt "SQ *STORE & SHOP")) = false) →
      normalizeMerchant DEFAULT_MERCHANT_PATTERNS (txt "SQ *STORE & SHOP")
        = Except.ok (stripGatewayPrefixes (txt "SQ *STORE & SHOP"))) ∧
    (∀ n, patFirst DEFAULT_MERCHANT_PATTERNS
        (stripGatewayPrefixes (txt "SQ *STORE & SHOP")) = some n →
      normalizeMerchant DEFAULT_MERCHANT_PATTERNS (txt "SQ *STORE & SHOP")
        = Except.ok n)) :=
  ⟨⟨by decide, by decide, by decide, by decide⟩,
   C9_normalize_merchant DEFAULT_MERCHANT_PATTERNS (txt "SQ *STORE & SHOP")
     (by decide)⟩

/-- A successful keyword fallback returns either `"Other"` or one of the
configured category names. -/
theorem fallbackCategorize_ok_value (cats : List (Str × List Str)) (d : Str)
    (v : Str) (h : fallbackCategorize cats d = Except.ok v) :
    v = txt "Other" ∨ v ∈ cats.map Prod.fst := by
  induction cats with
  | nil => left; exact (Except.ok.inj h).symm
  | cons ck rest ih =>
    obtain ⟨cat, ps⟩ := ck
    have h' : (match anyRawPattern d ps with
      | Except.error e => Except.error e
      | Except.ok hit =>
        if hit then Except.ok cat else fallbackCategorize rest d) = Except.ok v := h
    cases har : anyRawPattern d ps with
    | error e => rw [har] at h'; exact absurd h' (by simp)
    | ok hit =>
      rw [har] at h'
      cases hit with
      | true =>
        right
        have hcv : (Except.ok cat : Except String Str) = Except.ok v := by
          simpa using h'
        have hc : cat = v := Except.ok.inj hcv
        rw [List.map_cons]
        exact hc ▸ List.mem_cons_self _ _
      | false =>
        rcases ih (by simpa using h') with hv | hv
        · left; exact hv
        · right; rw [List.map_cons]; exact List.mem_cons_of_mem _ hv

/-- C10: when the first fully-matching rule's category is the empty string,
`apply_rules` returns that empty string, but `_categorize_transaction` tests
the result for truthiness rather than against the `None` sentinel, so a
matched empty-string category is treated as no-match and the resolver falls
back to keyword categorization — an empty rule category never surfaces as
the resolved category (category names being nonempty). -/
theorem C10_empty_rule_category (cats : List (Str × List Str))
    (rules : List TransactionRule) (desc : Str) (amount : Rat)
    (date : PyDateTime)
    (hwf : ∀ r ∈ rules, wfRule r = true)
    (hfm : firstMatchCat rules desc amount date = some [])
    (hne : ∀ ck ∈ cats, ck.1 ≠ []) :
    applyRules rules desc amount date = Except.ok (some []) ∧
    categorizeWithRules cats rules desc amount date
      = fallbackCategorize cats desc ∧
    categorizeWithRules cats rules desc amount date ≠ Except.ok [] := by
  have h1 : applyRules rules desc amount date = Except.ok (some []) := by
    rw [applyRules_eq_firstMatch rules desc amount date hwf, hfm]
  have h2 : categorizeWithRules cats rules desc amount date
      = fallbackCategorize cats desc := by
    unfold categorizeWithRules
    rw [h1]
    rfl
  refine ⟨h1, h2, ?_⟩
  rw [h2]
  intro hcontra
  rcases fallbackCategorize_ok_value cats desc [] hcontra with hv | hv
  · exact absurd hv (by decide)
  · obtain ⟨ck, hmem, hfst⟩ := List.mem_map.mp hv
    exact hne ck hmem hfst

/-- C10 witness: a priority-5 rule with pattern `X` and category `""` is the
first match on description `X`; the resolver ignores it and falls back to
the keyword categorizer, which resolves to `"Other"`. -/
theorem C10_empty_rule_category_witness :
    ((∀ r ∈ [emptyCatRule], wfRule r = true) ∧
     firstMatchCat [emptyCatRule] (txt "X") 0 someDay = some [] ∧
     fallbackCategorize [(txt "Groceries", [txt "coles"])] (txt "X")
       = Except.ok (txt "Other")) ∧
    (applyRules [emptyCatRule] (txt "X") 0 someDay = Except.ok (some []) ∧
     categorizeWithRules [(txt "Groceries", [txt "coles"])] [emptyCatRule]
       (txt "X") 0 someDay
       = fallbackCategorize [(txt "Groceries", [txt "coles"])] (txt "X") ∧
     categorizeWithRules [(txt "Groceries", [txt "coles"])] [emptyCatRule]
       (txt "X") 0 someDay ≠ Except.ok []) :=
  ⟨⟨by decide, by decide, by decide⟩,
   C10_empty_rule_category [(txt "Groceries", [txt "coles"])] [emptyCatRule]
     (txt "X") 0 someDay (by decide) (by decide) (by decide)⟩
